import Mathlib

/-!
# Verification of the bulk-lighthouse orchestration and grading engine

Shallow embedding of the repository's main script (`index.js`, the ESM
variant shipped as the current CLI).  JavaScript objects parsed from JSON
are modelled by the inductive `Json`; machine numbers are modelled by `ℚ`
(all arithmetic the script performs on scores and thresholds is exact
decimal arithmetic in the ranges involved); JavaScript exceptions are
modelled by `Except String`; `undefined` is modelled by `Option.none`.

Every definition mirrors one function of the source file and carries its
name.  Modelling choices that abstract JavaScript minutiae are recorded in
the doc comment of the definition that makes them.
-/

namespace BulkLighthouse

/-- A JSON value, as produced by `JSON.parse`.  Numbers are modelled by `ℚ`
(JSON numbers are decimal literals; every number the script manipulates is
exactly representable).  Object fields are an association list in document
order; `JSON.parse` de-duplicates keys, and the model assumes parsed
objects have distinct keys where that matters (first-match lookup). -/
inductive Json where
  | null
  | bool (b : Bool)
  | num (q : ℚ)
  | str (s : String)
  | arr (elems : List Json)
  | obj (fields : List (String × Json))

/-- JavaScript truthiness of a defined value: `null`, `false`, `0` and the
empty string are falsy; every object and array is truthy. -/
def jsTruthy : Json → Bool
  | .null => false
  | .bool b => b
  | .num q => decide (q ≠ 0)
  | .str s => decide (s ≠ "")
  | .arr _ => true
  | .obj _ => true

/-- Truthiness of a possibly-`undefined` value (`undefined` is falsy). -/
def truthyOpt : Option Json → Bool
  | none => false
  | some j => jsTruthy j

/-- Plain property access `x.k` on a defined value.  Reading a property of
`null` throws a `TypeError`; reading a named property of a primitive or an
array yields `undefined` (none of the script's property names collide with
built-in properties such as `length`). -/
def jsPropE : Json → String → Except String (Option Json)
  | .null, _ => .error "TypeError: cannot read properties of null"
  | .obj fields, k => .ok (fields.lookup k)
  | _, _ => .ok none

/-- Plain property access `x.k` where `x` itself may be `undefined`
(throws a `TypeError` on `undefined`, otherwise as `jsPropE`). -/
def jsPropOptE : Option Json → String → Except String (Option Json)
  | none, _ => .error "TypeError: cannot read properties of undefined"
  | some j, k => jsPropE j k

/-- Optional-chained access `x?.[k]` / `x?.k`: `undefined` and `null`
short-circuit to `undefined`; a named property of a primitive or an array
is `undefined`; an object is looked up. -/
def jsOpt (x : Option Json) (k : String) : Option Json :=
  match x with
  | none => none
  | some .null => none
  | some (.obj fields) => fields.lookup k
  | some _ => none

/-- Model of `Object.keys(x)` on a possibly-`undefined` value.  Throws a `TypeError`
on `undefined` and `null`; an object yields its field names in order, an
array or string yields its index strings, any other primitive yields
`[]`. -/
def jsObjectKeysOpt : Option Json → Except String (List String)
  | none => .error "TypeError: Object.keys of undefined"
  | some .null => .error "TypeError: Object.keys of null"
  | some (.obj fields) => .ok (fields.map (·.1))
  | some (.arr xs) => .ok ((List.range xs.length).map toString)
  | some (.str s) => .ok ((List.range s.length).map toString)
  | some _ => .ok []

/-- Model of `Object.entries(x)` on a possibly-`undefined` value; same domain rules
as `jsObjectKeysOpt`. -/
def jsObjectEntriesOpt : Option Json → Except String (List (String × Json))
  | none => .error "TypeError: Object.entries of undefined"
  | some .null => .error "TypeError: Object.entries of null"
  | some (.obj fields) => .ok fields
  | some (.arr xs) => .ok (xs.enum.map (fun p => (toString p.1, p.2)))
  | some (.str s) => .ok ((s.toList.enum.map (fun p => (toString p.1, Json.str (String.mk [p.2])))))
  | some _ => .ok []

/-- Model of `x || d` where the result is then used where the source expects a
value: a falsy (or `undefined`) `x` yields the default `d`, a truthy `x`
yields `x` itself. -/
def jsOr (x : Option Json) (d : Json) : Json :=
  match x with
  | none => d
  | some j => if jsTruthy j then j else d

/-- Numeric view of a JSON value used as a threshold.  A number reads off
its value.  A truthy non-number threshold (object, array, non-numeric
string) would make JavaScript compare against `NaN` or a coerced value;
such configurations are outside this model and read as `0`. -/
def toNumModel : Json → ℚ
  | .num q => q
  | .bool b => if b then 1 else 0
  | _ => 0

/-- The threshold chain
`config.categories?.[category]?.[field]?.[strategy]` (source lines 214-215
and 366), before the `||` default is applied. -/
def lookupCut (cfg : Json) (category field strategy : String) : Option Json :=
  jsOpt (jsOpt (jsOpt (match jsPropE cfg "categories" with
    | .ok v => v
    | .error _ => none) category) field) strategy

/-- The effective cut point
`config.categories?.[category]?.[field]?.[strategy] || dflt`:
the configured value when it is truthy (in particular, a configured `0` is
falsy and falls back to the default). -/
def effCut (cfg : Json) (category field strategy : String) (dflt : ℚ) : ℚ :=
  toNumModel (jsOr (lookupCut cfg category field strategy) (.num dflt))

/-- The three branches of `formatResult` (source lines 212-224): green
check, yellow OK, red cross.  The renderer (color codes, emoji, rounding)
is excluded per the spec; only the chosen branch matters for grading. -/
inductive Verdict where
  | pass
  | warn
  | fail
deriving DecidableEq

/-- Model of `formatResult(score, category, strategy)` (source lines 212-224),
reduced to the branch it takes.  `score` is `result.lighthouse[category]`
and may be `undefined` (`none`) when the result lacks the category; both
JavaScript comparisons with `undefined` are then false and the red branch
is taken.  The per-call `getConfig()` re-read is the immutable parsed
config `cfg` (see `getConfig`); `formatResult` only runs on configs that
loaded successfully. -/
def formatResult (cfg : Json) (score : Option ℚ) (category strategy : String) : Verdict :=
  let threshold := effCut cfg category "threshold" strategy 90
  let lowerThreshold := effCut cfg category "lowerThreshold" strategy 50
  match score with
  | some s =>
    if s ≥ threshold then .pass
    else if s ≥ lowerThreshold then .warn
    else .fail
  | none => .fail

/-- JavaScript object spread `{ ...a, ...b }` on two objects given as field
lists: the fields of `a` in order, each overridden by `b`'s value when `b`
has the key, followed by the fields of `b` whose keys are absent from `a`.
The override is per whole key — nested objects are replaced, not merged. -/
def jsSpread (a b : List (String × Json)) : List (String × Json) :=
  a.map (fun p =>
    match b.lookup p.1 with
    | some v => (p.1, v)
    | none => p)
  ++ b.filter (fun p => (a.lookup p.1).isNone)

/-- Result of the `getConfig()` call (source lines 26-47).  `notFound`
models the file-absent branch: the function logs, sets
`process.exitCode = 1` and returns `undefined`.  `thrown` models an
exception escaping the call (`JSON.parse` failure, or a `TypeError` from
`Object.keys(config.urls)` / the group test).  `loaded` carries the value
the call returns. -/
inductive ConfigLoad where
  | notFound
  | thrown (msg : String)
  | loaded (config : Json)

/-- First configured key of `config.urls`, i.e. `Object.keys(config.urls)[0]`
(source line 37); throws when `config.urls` is `undefined` or `null`. -/
def urlsFirstKey (config : Json) : Except String (Option String) :=
  match jsPropE config "urls" with
  | .error e => .error e
  | .ok urlsOpt =>
    match jsObjectKeysOpt urlsOpt with
    | .error e => .error e
    | .ok ks => .ok ks.head?

/-- Model of `getConfig()` (source lines 26-47).  `file` models the config file:
`none` when absent, `some (.error e)` when present but `JSON.parse` throws,
`some (.ok j)` when it parses to `j`.  `argv3` is `process.argv[3]` (the
optional group name; the empty string is falsy and falls through to the
default).  When `config.groups` is truthy and holds the selected group as
an object, the group is spread over the top level (`{...config, ...group}`,
a shallow per-key override); spreading a non-object group adds no named
keys, so the config is returned unchanged in that case (string groups,
which would add index keys, are outside this model). -/
def getConfig (file : Option (Except String Json)) (argv3 : Option String) : ConfigLoad :=
  match file with
  | none => .notFound
  | some (.error e) => .thrown e
  | some (.ok config) =>
    let groupE : Except String (Option String) :=
      match argv3 with
      | some g => if g = "" then urlsFirstKey config else .ok (some g)
      | none => urlsFirstKey config
    match groupE with
    | .error e => .thrown e
    | .ok group =>
      match jsPropE config "groups" with
      | .error e => .thrown e
      | .ok groupsOpt =>
        match groupsOpt with
        | some (.obj gf) =>
          match gf.lookup (group.getD "undefined") with
          | some (.obj grpFields) =>
            match config with
            | .obj cf => .loaded (.obj (jsSpread cf grpFields))
            | _ => .loaded (.obj grpFields)
          | some _ => .loaded config
          | none => .loaded config
        | some (.arr _) => .loaded config
        | some j => if jsTruthy j then .thrown "TypeError: cannot use in on a primitive" else .loaded config
        | none => .loaded config

/-- One audit result: the object built from `defaultData` (source lines
82-86 / 141-145): the tested URL, the strategy, and the per-category score
map `lighthouse` (empty on every failure path). -/
structure AuditResult where
  url : Json
  strategy : String
  lighthouse : List (String × ℚ)

/-- Model of `Object.keys(config.categories)` (source lines 88 / 147 / 235 / 359):
the configured category names, throwing when `config.categories` is
absent or `null` (or when `cfg` itself is `null`). -/
def categoriesKeys (cfg : Json) : Except String (List String) :=
  match jsPropE cfg "categories" with
  | .error e => .error e
  | .ok v => jsObjectKeysOpt v

/-- The score map built from `lighthouseResult.categories` (source lines
125-128 / 197-200): `Object.entries(...)` followed by
`scores[category] = score * 100` with `{ score = 0 }` defaulting an absent
score field to `0`.  Destructuring a `null` entry value throws; a `null`
score multiplies to `0`; a boolean coerces to `0`/`1`.  Non-numeric,
non-boolean score values (which JavaScript would coerce to `NaN` or via
`ToNumber`) are outside this model and read as `0`. -/
def scoreEntries (categoriesVal : Option Json) : Except String (List (String × ℚ)) :=
  match jsObjectEntriesOpt categoriesVal with
  | .error e => .error e
  | .ok entries =>
    entries.mapM (fun p =>
      match p.2 with
      | .null => .error "TypeError: cannot destructure null"
      | .obj fields =>
        .ok (p.1, (match fields.lookup "score" with
          | none => 0
          | some v => toNumModel v) * 100)
      | _ => .ok (p.1, 0))

/-- Outcome of the single `fetch` + `.json()` step of the PageSpeed
engine (source lines 173-179): either the promise chain rejects (network
failure or unparsable body — both inside the `try`), or it resolves to the
parsed response body. -/
inductive FetchOutcome where
  | reject (msg : String)
  | ok (response : Json)

/-- Model of `runTestsForUrlPagespeed(strategy, url)` (source lines 139-202).
`cfg` is the (deterministic) value of the function's own `getConfig()`
call; `outcome` is the backend interaction.  URL construction,
`searchParams` appending, the request-URL log line, and
`writeResultsFile` are effects that do not influence the returned value
and are not modelled (`writeResultsFile` is assumed not to throw;
`WriteError` is out of scope per the spec).  A rejected fetch is caught
and yields `defaultData`; a falsy `lighthouseResult` yields `defaultData`;
but a truthy `lighthouseResult` whose `categories` field is absent or
`null` makes `Object.entries` throw a `TypeError` outside the `try` —
that exception escapes the function. -/
def runTestsForUrlPagespeed (cfg : Json) (strategy : String) (url : Json)
    (outcome : FetchOutcome) : Except String AuditResult :=
  let defaultData : AuditResult := ⟨url, strategy, []⟩
  match categoriesKeys cfg with
  | .error e => .error e
  | .ok categories =>
    if categories.isEmpty then .ok defaultData
    else
      match outcome with
      | .reject _ => .ok defaultData
      | .ok response =>
        match jsPropE response "lighthouseResult" with
        | .error e => .error e
        | .ok lhrOpt =>
          if truthyOpt lhrOpt then
            match scoreEntries (jsOpt lhrOpt "categories") with
            | .error e => .error e
            | .ok scores => .ok { defaultData with lighthouse := scores }
          else .ok defaultData

/-- Outcome of the local-tool interaction of the Lighthouse engine (source
lines 98-111): the `chrome-launcher` launch may reject, the `lighthouse`
invocation may reject, or the tool resolves and `lhr` is destructured from
its result (`none` when the result object lacks the field). -/
inductive ToolOutcome where
  | launchCrash (msg : String)
  | toolCrash (msg : String)
  | ok (lhr : Option Json)

/-- Model of `runTestsForUrlLighthouse(strategy, url)` (source lines 80-130).  The
`chromeLauncher.launch` and `lighthouse(...)` awaits are not wrapped in
any `try`/`catch`: a rejection of either propagates out of the function.
Only a falsy `lhr` is handled (logged, `defaultData` returned).  As in the
PageSpeed variant, URL building, the desktop-config selection, the
`chrome.kill()` await and `writeResultsFile` are non-observable effects
here and are not modelled. -/
def runTestsForUrlLighthouse (cfg : Json) (strategy : String) (url : Json)
    (outcome : ToolOutcome) : Except String AuditResult :=
  let defaultData : AuditResult := ⟨url, strategy, []⟩
  match categoriesKeys cfg with
  | .error e => .error e
  | .ok categories =>
    if categories.isEmpty then .ok defaultData
    else
      match outcome with
      | .launchCrash e => .error e
      | .toolCrash e => .error e
      | .ok lhrOpt =>
        if truthyOpt lhrOpt then
          match scoreEntries (jsOpt lhrOpt "categories") with
          | .error e => .error e
          | .ok scores => .ok { defaultData with lighthouse := scores }
        else .ok defaultData

/-- Chunking of the URL list (source lines 279-284): the slices
`urls.slice(j, j + batchSize)` for `j = 0, batchSize, 2·batchSize, …`.
Structural recursion on a fuel equal to the list length (for `bs ≥ 1` each
step strictly shrinks the list, so the fuel never runs out). -/
def chunkedAux (bs : ℕ) : ℕ → List α → List (List α)
  | 0, _ => []
  | _, [] => []
  | fuel + 1, x :: xs => (x :: xs).take bs :: chunkedAux bs fuel ((x :: xs).drop bs)

/-- The consecutive batches of at most `bs` elements of `l`. -/
def chunked (bs : ℕ) (l : List α) : List (List α) :=
  chunkedAux bs l.length l

/-- The effective batch size (source line 272):
`('batchSize' in config && config.batchSize > 0) ? config.batchSize : 400`.
A configured positive integer is used; an absent, non-positive or
non-numeric value falls back to `400`.  A positive non-integer `batchSize`
(which JavaScript's `slice` would truncate) is outside this model and also
reads as `400`. -/
def effBatchSize (cfg : Json) : ℕ :=
  match cfg with
  | .obj fields =>
    match fields.lookup "batchSize" with
    | some (.num q) => if 0 < q ∧ q.den = 1 then q.num.toNat else 400
    | some _ => 400
    | none => 400
  | _ => 400

/-- Slot-filling semantics of `Promise.all`: each completion event `i`
stores the result of task `i` into slot `i`, in the (arbitrary) temporal
order given by `order`.  Events outside the slot range have no effect. -/
def fillSlots (tasks : List α) : List ℕ → List (Option α) → List (Option α)
  | [], slots => slots
  | i :: rest, slots => fillSlots tasks rest (slots.set i (tasks.get? i))

/-- Model of `Promise.all(tasks)` under the completion order `order`: resolves (to
the slot contents in input order) exactly when every slot has been filled;
an order that never completes some task models a hung backend call, under
which `Promise.all` never resolves (`none`). -/
def promiseAll (tasks : List α) (order : List ℕ) : Option (List α) :=
  let final := fillSlots tasks order (List.replicate tasks.length none)
  if final.all (·.isSome) then some (final.filterMap id) else none

/-- One strategy of `runPagespeed` (source lines 275-287): the URL list is
chunked by the effective batch size; each chunk is dispatched with
`Promise.all` and awaited before the next chunk starts; the chunk results
are appended in order.  `Promise.all`'s result is in task order
independently of completion order (`promiseAll_covers`), so the awaited
value of a chunk is its results in chunk order; a rejection inside a chunk
rejects the `await` and propagates (modelled by the `Except` bind). -/
def runStrategyPagespeed (cfg : Json) (strategy : String) (urls : List Json)
    (outcome : String → Json → FetchOutcome) : Except String (List AuditResult) := do
  let batches := chunked (effBatchSize cfg) urls
  let batchResults ← batches.mapM (fun batch =>
    batch.mapM (fun url => runTestsForUrlPagespeed cfg strategy url (outcome strategy url)))
  pure batchResults.flatten

/-- Model of `runPagespeed(strategies, urls)` (source lines 270-292): strategies
are processed sequentially, each by `runStrategyPagespeed`. -/
def runPagespeed (cfg : Json) (strategies : List String) (urls : List Json)
    (outcome : String → Json → FetchOutcome) : Except String (List (List AuditResult)) :=
  strategies.mapM (fun strategy => runStrategyPagespeed cfg strategy urls outcome)

/-- Model of `runLighthouse(strategies, urls)` (source lines 301-312): every
(strategy, URL) pair strictly sequentially, one audit at a time; an
exception escaping `runTestsForUrlLighthouse` propagates. -/
def runLighthouse (cfg : Json) (strategies : List String) (urls : List Json)
    (outcome : String → Json → ToolOutcome) : Except String (List (List AuditResult)) :=
  strategies.mapM (fun strategy =>
    urls.mapM (fun url => runTestsForUrlLighthouse cfg strategy url (outcome strategy url)))

/-- The `{fail, total}` accumulator of the per-strategy reduce (source
lines 355-376). -/
structure FailTotal where
  fail : ℕ
  total : ℕ
deriving DecidableEq

/-- One step of the reduce (source lines 355-370): an empty score map
counts every configured category as failed; otherwise each scored category
increments `total` and increments `fail` when the score is below the upper
threshold `config.categories?.[category]?.threshold?.[strategy] || 90`.
`categoriesOpt` is the `categories` binding destructured from the config
in the main IIFE (line 319). -/
def tallyResult (cfg : Json) (categoriesOpt : Option Json) (strategy : String)
    (acc : FailTotal) (r : AuditResult) : Except String FailTotal :=
  if r.lighthouse.isEmpty then
    match jsObjectKeysOpt categoriesOpt with
    | .error e => .error e
    | .ok ks => .ok ⟨acc.fail + ks.length, acc.total + ks.length⟩
  else
    .ok (r.lighthouse.foldl (fun a p =>
      ⟨a.fail + (if p.2 < effCut cfg p.1 "threshold" strategy 90 then 1 else 0),
       a.total + 1⟩) acc)

/-- Model of `results.reduce(..., \x7bfail: 0, total: 0\x7d)` for one strategy (source
lines 355-376). -/
def strategyFailTotal (cfg : Json) (categoriesOpt : Option Json) (strategy : String)
    (results : List AuditResult) : Except String FailTotal :=
  results.foldlM (tallyResult cfg categoriesOpt strategy) ⟨0, 0⟩

/-- The final exit-code computation (source lines 346, 379-397): the exit
code already set before grading (`preExit`, `0` or `1`) is overridden to
`1` when any strategy's `fail` count is nonzero (`hasFailures`). -/
def exitFromTallies (preExit : ℕ) (tallies : List FailTotal) : ℕ :=
  if tallies.any (fun ft => decide (ft.fail ≠ 0)) then 1 else preExit

/-- Model of `x?.length` (source lines 321, 327): a defined array or string exposes
its length; any other value gives `undefined`. -/
def jsLengthOpt : Option Json → Option ℕ
  | some (.arr xs) => some xs.length
  | some (.str s) => some s.length
  | _ => none

/-- Truthiness of `x?.length`: false when `undefined` or `0`. -/
def lengthTruthy (x : Option Json) : Bool :=
  match jsLengthOpt x with
  | some n => decide (n ≠ 0)
  | none => false

/-- All-strings view of a JSON array, used to type the `strategies` array:
the script only makes sense for string strategies (they are used as object
keys and table labels); arrays with non-string elements are outside this
model. -/
def allStrings : List Json → Option (List String)
  | [] => some []
  | .str s :: rest => (allStrings rest).map (s :: ·)
  | _ :: _ => none

/-- Observable outcome of one invocation: the process exit code (`1` both
for an explicit `process.exitCode = 1` and for a crash by unhandled
rejection, Node's default) and the number of backend audit dispatches
(PageSpeed `fetch` calls, or local Chrome launches). -/
structure RunReport where
  exitCode : ℕ
  backendCalls : ℕ
deriving DecidableEq

/-- Backend dispatches of a single `runTestsForUrlPagespeed` call: exactly
one `fetch` of the API unless the function returns or throws before the
request (no configured categories, or `Object.keys` throwing). -/
def pagespeedDispatchesPerUrl (cfg : Json) : ℕ :=
  match categoriesKeys cfg with
  | .error _ => 0
  | .ok cats => if cats.isEmpty then 0 else 1

/-- Backend dispatches of a single `runTestsForUrlLighthouse` call: one
Chrome launch + lighthouse invocation unless the function exits before the
launch. -/
def lighthouseDispatchesPerUrl (cfg : Json) : ℕ :=
  match categoriesKeys cfg with
  | .error _ => 0
  | .ok cats => if cats.isEmpty then 0 else 1

/-- Whether some request of a chunk rejects (which makes the chunk's
`Promise.all` reject after all the chunk's requests were dispatched). -/
def chunkError (cfg : Json) (strategy : String) (outcome : String → Json → FetchOutcome)
    (batch : List Json) : Bool :=
  batch.any (fun url =>
    match runTestsForUrlPagespeed cfg strategy url (outcome strategy url) with
    | .error _ => true
    | .ok _ => false)

/-- Dispatches of the chunk loop for one strategy: every chunk up to and
including the first rejecting chunk dispatches all its requests; chunks
after a rejected `await` are never reached.  Returns the dispatch count
and whether the loop aborted. -/
def batchesDispatch (cfg : Json) (strategy : String) (outcome : String → Json → FetchOutcome) :
    List (List Json) → ℕ × Bool
  | [] => (0, false)
  | b :: bs =>
    let d := pagespeedDispatchesPerUrl cfg * b.length
    if chunkError cfg strategy outcome b then (d, true)
    else
      let rest := batchesDispatch cfg strategy outcome bs
      (d + rest.1, rest.2)

/-- Total backend dispatches of `runPagespeed`: strategies run
sequentially until one aborts by a rejected chunk. -/
def runPagespeedCalls (cfg : Json) (strategies : List String) (urls : List Json)
    (outcome : String → Json → FetchOutcome) : ℕ :=
  (strategies.foldl (fun acc strategy =>
    if acc.2 then acc
    else
      let r := batchesDispatch cfg strategy outcome (chunked (effBatchSize cfg) urls)
      (acc.1 + r.1, r.2)) ((0 : ℕ), false)).1

/-- Total backend dispatches of `runLighthouse`: pairs run one at a time
until the first escaping exception. -/
def runLighthouseCalls (cfg : Json) (strategies : List String) (urls : List Json)
    (outcome : String → Json → ToolOutcome) : ℕ :=
  (strategies.foldl (fun acc strategy =>
    urls.foldl (fun acc2 url =>
      if acc2.2 then acc2
      else
        let d := lighthouseDispatchesPerUrl cfg
        match runTestsForUrlLighthouse cfg strategy url (outcome strategy url) with
        | .error _ => (acc2.1 + d, true)
        | .ok _ => (acc2.1 + d, acc2.2)) acc) ((0 : ℕ), false)).1

/-- The main IIFE (source lines 317-398), from config load to the final
exit code.  A `thrown` config load is an exception inside the async IIFE —
an unhandled rejection, which Node reports with exit code 1; a `notFound`
load sets `process.exitCode = 1` and returns `undefined`, whose
destructuring on line 319 then also crashes with exit code 1.  The three
validation branches return early with exit code 1; the unsupported-engine
branch sets the exit code but does NOT return, and the run proceeds on the
lighthouse path (`engine === 'pagespeed'` is false).  Non-array `urls` or
`strategies` values that pass the truthy-length check, and non-string
strategy elements, crash later with no PageSpeed dispatch and are modelled
as an immediate crash. -/
def mainRun (file : Option (Except String Json)) (argv3 : Option String)
    (psOutcome : String → Json → FetchOutcome)
    (lhOutcome : String → Json → ToolOutcome) : RunReport :=
  match getConfig file argv3 with
  | .thrown _ => ⟨1, 0⟩
  | .notFound => ⟨1, 0⟩
  | .loaded config =>
    match jsPropE config "categories", jsPropE config "engine",
          jsPropE config "strategies", jsPropE config "urls" with
    | .ok categoriesOpt, .ok engineOpt, .ok strategiesOpt, .ok urlsOpt =>
      let engine : Json := engineOpt.getD (.str "pagespeed")
      let engineStr : Option String := match engine with | .str s => some s | _ => none
      if lengthTruthy urlsOpt = false then ⟨1, 0⟩
      else if lengthTruthy strategiesOpt = false then ⟨1, 0⟩
      else
        let preExit : ℕ :=
          if engineStr = some "pagespeed" ∨ engineStr = some "lighthouse" then 0 else 1
        match urlsOpt, strategiesOpt with
        | some (.arr urls), some (.arr strategiesJ) =>
          match allStrings strategiesJ with
          | some strategies =>
            let runRes : Except String (List (List AuditResult)) :=
              if engineStr = some "pagespeed" then runPagespeed config strategies urls psOutcome
              else runLighthouse config strategies urls lhOutcome
            let calls : ℕ :=
              if engineStr = some "pagespeed" then runPagespeedCalls config strategies urls psOutcome
              else runLighthouseCalls config strategies urls lhOutcome
            match runRes with
            | .error _ => ⟨1, calls⟩
            | .ok allResults =>
              match (List.zip strategies allResults).mapM
                  (fun p => strategyFailTotal config categoriesOpt p.1 p.2) with
              | .error _ => ⟨1, calls⟩
              | .ok tallies => ⟨exitFromTallies preExit tallies, calls⟩
          | none => ⟨1, 0⟩
        | _, _ => ⟨1, 0⟩
    | _, _, _, _ => ⟨1, 0⟩

/-! ## Concrete fixtures used by the theorems below -/

def urlA : Json := .str "https://a.test"

def urlB : Json := .str "https://b.test"

def urlC : Json := .str "https://c.test"

def urls2 : List Json := [urlA, urlB]

def urls3 : List Json := [urlA, urlB, urlC]

/-- Backend that always fails at the network level. -/
def psRejectAll : String → Json → FetchOutcome := fun _ _ => .reject "network failure"

/-- Local tool that resolves with a result object lacking `lhr`. -/
def lhNoLhr : String → Json → ToolOutcome := fun _ _ => .ok none

def auditTasks2 : List AuditResult :=
  [⟨urlA, "mobile", []⟩, ⟨urlB, "mobile", []⟩]

def resPs2 : List (List AuditResult) :=
  [[⟨urlA, "mobile", []⟩, ⟨urlB, "mobile", []⟩]]

/-- A minimal well-formed config: one category with mobile threshold 70
(the default lower threshold 50 applies). -/
def cfgExample : Json :=
  .obj [("categories", .obj [("performance", .obj
          [("threshold", .obj [("mobile", .num 70)])])]),
        ("strategies", .arr [.str "mobile"]),
        ("urls", .arr [.str "https://a.test"])]

/-- A config that explicitly sets both cut points of performance/mobile
to `0`. -/
def cfgZeroThreshold : Json :=
  .obj [("categories", .obj [("performance", .obj
          [("threshold", .obj [("mobile", .num 0)]),
           ("lowerThreshold", .obj [("mobile", .num 0)])])]),
        ("strategies", .arr [.str "mobile"]),
        ("urls", .arr [.str "https://a.test"])]

/-- A config whose performance category configures no cut points at all. -/
def cfgNoCuts : Json :=
  .obj [("categories", .obj [("performance", .obj [])]),
        ("strategies", .arr [.str "mobile"]),
        ("urls", .arr [.str "https://a.test"])]

/-- A group override used as concrete input: the group `staging` replaces
the whole `categories` block and leaves `strategies`/`urls` untouched. -/
def cfgWithGroup : List (String × Json) :=
  [("categories", .obj [("performance", .obj
      [("threshold", .obj [("mobile", .num 70)])])]),
   ("strategies", .arr [.str "mobile"]),
   ("urls", .arr [.str "https://a.test"]),
   ("groups", .obj [("staging", .obj
      [("categories", .obj [("seo", .obj [])])])])]

/-- A config whose `batchSize` is 2. -/
def cfgBatch2 : Json := .obj [("batchSize", .num 2)]

/-- A config whose required `categories` key is the empty object. -/
def cfgEmptyCats : Json :=
  .obj [("categories", .obj []),
        ("strategies", .arr [.str "mobile"]),
        ("urls", .arr [.str "https://a.test"])]

/-- A config selecting an unsupported engine. -/
def cfgBadEngine : Json :=
  .obj [("categories", .obj [("performance", .obj [])]),
        ("strategies", .arr [.str "mobile"]),
        ("urls", .arr [.str "https://a.test"]),
        ("engine", .str "chrome")]

/-- The categories object of `cfgExample`. -/
def catsExample : Json :=
  .obj [("performance", .obj [("threshold", .obj [("mobile", .num 70)])])]

/-- A result scoring 65 on performance (a `warn` under T = 70, L = 50). -/
def res65 : AuditResult := ⟨urlA, "mobile", [("performance", 65)]⟩

/-- A result scoring 80 on `pwa`, a category absent from `cfgExample`. -/
def res9 : AuditResult := ⟨urlA, "mobile", [("pwa", 80)]⟩

/-- The sizes of the concurrently-in-flight request groups of a PageSpeed
run, in dispatch order: strategies are sequential (the outer loop awaits
each strategy), and within a strategy each chunk is dispatched at once and
awaited (`await Promise.all`, source line 282) before the next chunk
starts, so at any instant the set of in-flight requests is contained in
one chunk. -/
def inFlightSizes (cfg : Json) (strategies : List String) (urls : List Json) : List ℕ :=
  strategies.flatMap (fun _ => (chunked (effBatchSize cfg) urls).map List.length)

/-- The configured category names (the table's columns), empty when the
lookup would throw. -/
def configCategories (cfg : Json) : List String :=
  match categoriesKeys cfg with
  | .ok ks => ks
  | .error _ => []

/-- Follows the spec's words (§4.5, §8), for comparison with the code's
aggregate: one GradedCell per configured category per result, graded by
the §3 verdict rule; the claimed per-strategy fail count is the number of
cells whose verdict is `fail`. -/
def specFailVerdictCells (cfg : Json) (strategy : String) (results : List AuditResult) : ℕ :=
  (results.map (fun r => (configCategories cfg).countP
    (fun c => decide (formatResult cfg (r.lighthouse.lookup c) c strategy = .fail)))).sum

/-- Per-result fail contribution of the code's reduce, expressed through
verdicts: every configured category for an empty result, else the number
of scored categories whose verdict is not `pass`. -/
def codeFailContrib (cfg : Json) (strategy : String) (ks : List String) (r : AuditResult) : ℕ :=
  if r.lighthouse.isEmpty then ks.length
  else r.lighthouse.countP (fun p => decide (formatResult cfg (some p.2) p.1 strategy ≠ .pass))

/-- Per-result total contribution of the code's reduce. -/
def codeTotalContrib (ks : List String) (r : AuditResult) : ℕ :=
  if r.lighthouse.isEmpty then ks.length else r.lighthouse.length

/-! ## getConfig invocation counts

The source calls the global `getConfig()` accessor — which re-reads,
re-parses and re-merges the config file — from every component
(`writeResultsFile` line 58, `runTestsForUrl*` lines 81/140, `formatResult`
line 213, `getResultsTable` line 234, `runPagespeed` line 271, and the main
IIFE line 318).  The following definitions count, for one invocation of the
program, how many `getConfig()` calls each function performs, mirroring the
call sites and the control flow (a call site inside a function body counts
once per execution of that body; execution stops at the first uncaught
exception, and all requests of a `Promise.all` chunk run even when one of
them rejects). -/

/-- One invocation of `writeResultsFile` performs one `getConfig()` call (source line 58). -/
def writeCfgCalls : ℕ := 1

/-- Count of `getConfig()` calls of one `runTestsForUrlPagespeed` execution: its own
call (line 140), plus `writeResultsFile`'s call when a truthy
`lighthouseResult` arrives (the write happens before the score mapping,
so it counts even when the score mapping then throws). -/
def runTestsForUrlPagespeedCfgCalls (cfg : Json) (outcome : FetchOutcome) : ℕ :=
  1 + (match categoriesKeys cfg with
    | .error _ => 0
    | .ok cats =>
      if cats.isEmpty then 0
      else
        match outcome with
        | .reject _ => 0
        | .ok response =>
          match jsPropE response "lighthouseResult" with
          | .error _ => 0
          | .ok lhrOpt => if truthyOpt lhrOpt then writeCfgCalls else 0)

/-- Count of `getConfig()` calls of one `runTestsForUrlLighthouse` execution
(source line 81, plus the write on success). -/
def runTestsForUrlLighthouseCfgCalls (cfg : Json) (outcome : ToolOutcome) : ℕ :=
  1 + (match categoriesKeys cfg with
    | .error _ => 0
    | .ok cats =>
      if cats.isEmpty then 0
      else
        match outcome with
        | .launchCrash _ => 0
        | .toolCrash _ => 0
        | .ok lhrOpt => if truthyOpt lhrOpt then writeCfgCalls else 0)

/-- Number of configured category columns (`Object.keys(config.categories)`
inside `getResultsTable`; this call does not go through `getConfig`). -/
def configCategoriesLen (cfg : Json) : ℕ :=
  match categoriesKeys cfg with
  | .error _ => 0
  | .ok ks => ks.length

/-- Count of `getConfig()` calls of one `getResultsTable` execution: its own call
(line 234) plus one `formatResult` call — each of which calls
`getConfig()` (line 213) — per result row and configured category
column. -/
def getResultsTableCfgCalls (cfg : Json) (results : List AuditResult) : ℕ :=
  1 + results.length * (configCategoriesLen cfg)

/-- Count of `getConfig()` calls of the chunk loop of one strategy: every chunk up
to and including the first rejecting one runs all its
`runTestsForUrlPagespeed` bodies. -/
def batchesCfgCalls (cfg : Json) (strategy : String) (outcome : String → Json → FetchOutcome) :
    List (List Json) → ℕ
  | [] => 0
  | b :: bs =>
    let d := (b.map (fun url => runTestsForUrlPagespeedCfgCalls cfg (outcome strategy url))).sum
    if chunkError cfg strategy outcome b then d
    else d + batchesCfgCalls cfg strategy outcome bs

/-- Count of `getConfig()` calls of `runPagespeed`: its own call (line 271) plus
the per-strategy chunk loops, stopping after a strategy whose chunk
rejected. -/
def runPagespeedCfgCalls (cfg : Json) (strategies : List String) (urls : List Json)
    (outcome : String → Json → FetchOutcome) : ℕ :=
  1 + (strategies.foldl (fun acc strategy =>
    if acc.2 then acc
    else
      (acc.1 + batchesCfgCalls cfg strategy outcome (chunked (effBatchSize cfg) urls),
       (chunked (effBatchSize cfg) urls).any (chunkError cfg strategy outcome))) ((0 : ℕ), false)).1

/-- Count of `getConfig()` calls of `runLighthouse` (the function itself performs
none; each sequential URL test performs its own, until the first escaping
exception). -/
def runLighthouseCfgCalls (cfg : Json) (strategies : List String) (urls : List Json)
    (outcome : String → Json → ToolOutcome) : ℕ :=
  (strategies.foldl (fun acc strategy =>
    urls.foldl (fun acc2 url =>
      if acc2.2 then acc2
      else
        match runTestsForUrlLighthouse cfg strategy url (outcome strategy url) with
        | .error _ => (acc2.1 + runTestsForUrlLighthouseCfgCalls cfg (outcome strategy url), true)
        | .ok _ => (acc2.1 + runTestsForUrlLighthouseCfgCalls cfg (outcome strategy url),
            acc2.2)) acc) ((0 : ℕ), false)).1

/-- Total `getConfig()` calls of one program invocation, mirroring
`mainRun`: one call in the main IIFE (line 318), then the engine
scheduler's calls, then — when the scheduler resolves — one
`getResultsTable` per strategy (each grading reduce re-uses the main
IIFE's `config` binding and performs no further call). -/
def mainCfgCalls (file : Option (Except String Json)) (argv3 : Option String)
    (psOutcome : String → Json → FetchOutcome)
    (lhOutcome : String → Json → ToolOutcome) : ℕ :=
  match getConfig file argv3 with
  | .thrown _ => 1
  | .notFound => 1
  | .loaded config =>
    match jsPropE config "categories", jsPropE config "engine",
          jsPropE config "strategies", jsPropE config "urls" with
    | .ok _, .ok engineOpt, .ok strategiesOpt, .ok urlsOpt =>
      let engine : Json := engineOpt.getD (.str "pagespeed")
      let engineStr : Option String := match engine with | .str s => some s | _ => none
      if lengthTruthy urlsOpt = false then 1
      else if lengthTruthy strategiesOpt = false then 1
      else
        match urlsOpt, strategiesOpt with
        | some (.arr urls), some (.arr strategiesJ) =>
          match allStrings strategiesJ with
          | some strategies =>
            let engineCalls : ℕ :=
              if engineStr = some "pagespeed" then
                runPagespeedCfgCalls config strategies urls psOutcome
              else runLighthouseCfgCalls config strategies urls lhOutcome
            let runRes : Except String (List (List AuditResult)) :=
              if engineStr = some "pagespeed" then runPagespeed config strategies urls psOutcome
              else runLighthouse config strategies urls lhOutcome
            match runRes with
            | .error _ => 1 + engineCalls
            | .ok allResults =>
              1 + engineCalls + (allResults.map (getResultsTableCfgCalls config)).sum
          | none => 1
        | _, _ => 1
    | _, _, _, _ => 1

/-! ## Basic facts about the effective cut points -/

theorem effCut_lookup_none {cfg : Json} {c f s : String} {d : ℚ}
    (h : lookupCut cfg c f s = none) : effCut cfg c f s d = d := by
  simp [effCut, jsOr, h, toNumModel]

theorem effCut_lookup_num {cfg : Json} {c f s : String} {t d : ℚ}
    (h : lookupCut cfg c f s = some (.num t)) (ht : t ≠ 0) :
    effCut cfg c f s d = t := by
  simp [effCut, jsOr, h, jsTruthy, ht, toNumModel]

theorem effCut_lookup_zero {cfg : Json} {c f s : String} {d : ℚ}
    (h : lookupCut cfg c f s = some (.num 0)) : effCut cfg c f s d = d := by
  simp [effCut, jsOr, h, jsTruthy, toNumModel]


/-! ## C1 — verdict thresholds -/

/-- C1: counterexample.  The claim quantifies over every active config and
takes `threshold`/`lowerThreshold` to be the config's values, defaulting
only "when unconfigured".  In `cfgZeroThreshold` the config's threshold
for performance/mobile is the number `0` and the score `40` satisfies
`score ≥ 0`, so the claim demands verdict `pass`; the code's falsy `||`
lookup replaces the configured `0` by the defaults 90/50 and yields
`fail`. -/
theorem C1_counterexample :
    lookupCut cfgZeroThreshold "performance" "threshold" "mobile" = some (.num 0) ∧
    (0 : ℚ) ≤ 40 ∧
    formatResult cfgZeroThreshold (some 40) "performance" "mobile" = .fail := by
  refine ⟨rfl, by norm_num, rfl⟩

/-- C1 (amended): for every score, category, strategy and active config,
with `T` and `L` the *effective* cut points (the configured per-category,
per-strategy value when it is truthy — a configured `0` counts as
unconfigured — else the defaults 90/50), and provided `L ≤ T`: the verdict
is `fail` iff score < L, `warn` iff L ≤ score < T, and `pass` iff
score ≥ T. -/
theorem C1_verdict_trichotomy (cfg : Json) (category strategy : String) (s : ℚ)
    (hLT : effCut cfg category "lowerThreshold" strategy 50 ≤
           effCut cfg category "threshold" strategy 90) :
    (formatResult cfg (some s) category strategy = .fail ↔
        s < effCut cfg category "lowerThreshold" strategy 50) ∧
    (formatResult cfg (some s) category strategy = .warn ↔
        effCut cfg category "lowerThreshold" strategy 50 ≤ s ∧
        s < effCut cfg category "threshold" strategy 90) ∧
    (formatResult cfg (some s) category strategy = .pass ↔
        effCut cfg category "threshold" strategy 90 ≤ s) := by
  unfold formatResult
  by_cases h1 : s ≥ effCut cfg category "threshold" strategy 90
  · simp only [h1, if_true]
    refine ⟨?_, ?_, ?_⟩ <;> simp <;> first | linarith | intro h; linarith
  · simp only [h1, if_false]
    by_cases h2 : s ≥ effCut cfg category "lowerThreshold" strategy 50
    · simp only [h2, if_true]
      refine ⟨?_, ?_, ?_⟩ <;> simp <;> linarith
    · simp only [h2, if_false]
      refine ⟨?_, ?_, ?_⟩ <;> simp <;> try linarith

/-- Witness for `C1_verdict_trichotomy` at `cfgExample` (T = 70, L = 50)
and score 65. -/
theorem C1_verdict_trichotomy_witness :
    effCut cfgExample "performance" "lowerThreshold" "mobile" 50 ≤
      effCut cfgExample "performance" "threshold" "mobile" 90 ∧
    (formatResult cfgExample (some 65) "performance" "mobile" = .warn ↔
        effCut cfgExample "performance" "lowerThreshold" "mobile" 50 ≤ 65 ∧
        (65 : ℚ) < effCut cfgExample "performance" "threshold" "mobile" 90) :=
  ⟨by decide, (C1_verdict_trichotomy cfgExample "performance" "mobile" 65 (by decide)).2.1⟩

/-! ## C10 — an explicitly configured zero cut point is never applied -/

/-- C10: whenever the config sets threshold/lowerThreshold to `0` for a
category and strategy, the falsy `||` lookup substitutes the defaults 90
and 50, so grading (both `formatResult` and the fail-count comparison of
line 366) behaves exactly as for a config leaving them unconfigured. -/
theorem C10_zero_cut_defaults (cfg cfg' : Json) (c s : String) (score : ℚ)
    (h1 : lookupCut cfg c "threshold" s = some (.num 0))
    (h2 : lookupCut cfg c "lowerThreshold" s = some (.num 0))
    (h1' : lookupCut cfg' c "threshold" s = none)
    (h2' : lookupCut cfg' c "lowerThreshold" s = none) :
    effCut cfg c "threshold" s 90 = 90 ∧
    effCut cfg c "lowerThreshold" s 50 = 50 ∧
    formatResult cfg (some score) c s = formatResult cfg' (some score) c s ∧
    ((score < effCut cfg c "threshold" s 90) ↔ (score < 90)) := by
  have hT := effCut_lookup_zero (d := 90) h1
  have hL := effCut_lookup_zero (d := 50) h2
  have hT' := effCut_lookup_none (d := 90) h1'
  have hL' := effCut_lookup_none (d := 50) h2'
  refine ⟨hT, hL, ?_, by rw [hT]⟩
  unfold formatResult
  rw [hT, hL, hT', hL']

/-- Witness for `C10_zero_cut_defaults` at `cfgZeroThreshold` versus
`cfgNoCuts`, score 40. -/
theorem C10_zero_cut_defaults_witness :
    effCut cfgZeroThreshold "performance" "threshold" "mobile" 90 = 90 ∧
    effCut cfgZeroThreshold "performance" "lowerThreshold" "mobile" 50 = 50 ∧
    formatResult cfgZeroThreshold (some 40) "performance" "mobile" =
      formatResult cfgNoCuts (some 40) "performance" "mobile" ∧
    (((40 : ℚ) < effCut cfgZeroThreshold "performance" "threshold" "mobile" 90) ↔
      ((40 : ℚ) < 90)) :=
  C10_zero_cut_defaults cfgZeroThreshold cfgNoCuts "performance" "mobile" 40 rfl rfl rfl rfl

/-! ## Lookup lemmas for the object spread -/

theorem lookup_append_some {α β : Type} [BEq α] {l₁ : List (α × β)} {k : α} {v : β}
    (l₂ : List (α × β)) (h : l₁.lookup k = some v) : (l₁ ++ l₂).lookup k = some v := by
  induction l₁ with
  | nil => simp [List.lookup] at h
  | cons hd tl ih =>
    obtain ⟨k₁, v₁⟩ := hd
    rw [List.cons_append]
    cases hhd : k == k₁ with
    | true =>
      simp only [List.lookup, hhd] at h ⊢
      exact h
    | false =>
      simp only [List.lookup, hhd] at h ⊢
      exact ih h

theorem lookup_append_none {α β : Type} [BEq α] {l₁ : List (α × β)} {k : α}
    (l₂ : List (α × β)) (h : l₁.lookup k = none) : (l₁ ++ l₂).lookup k = l₂.lookup k := by
  induction l₁ with
  | nil => simp
  | cons hd tl ih =>
    obtain ⟨k₁, v₁⟩ := hd
    rw [List.cons_append]
    cases hhd : k == k₁ with
    | true => simp [List.lookup, hhd] at h
    | false =>
      simp only [List.lookup, hhd] at h ⊢
      exact ih h

/-- Lookup in the overridden copy of `a` (the first half of the spread):
each key of `a` maps to `b`'s value when `b` has the key, else to `a`'s. -/
theorem lookup_map_override (a b : List (String × Json)) (k : String) :
    ((a.map (fun p =>
      match b.lookup p.1 with
      | some v => (p.1, v)
      | none => p)).lookup k)
      = match a.lookup k with
        | none => none
        | some w =>
          match b.lookup k with
          | some v => some v
          | none => some w := by
  induction a with
  | nil => simp [List.lookup]
  | cons hd tl ih =>
    obtain ⟨k₁, v₁⟩ := hd
    cases hhd : k == k₁ with
    | true =>
      have hk : k = k₁ := by simpa using hhd
      subst hk
      cases hb : b.lookup k <;>
        simp only [List.map, List.lookup, hb, hhd]
    | false =>
      cases hb : b.lookup k₁ <;>
        simp only [List.map, List.lookup, hb, hhd] <;> exact ih

/-- Filtering by a predicate that holds on every entry with key `k` does
not change the lookup of `k`. -/
theorem lookup_filter_keep {p : String × Json → Bool} (b : List (String × Json)) (k : String)
    (h : ∀ v, (k, v) ∈ b → p (k, v) = true) : (b.filter p).lookup k = b.lookup k := by
  induction b with
  | nil => simp
  | cons hd tl ih =>
    obtain ⟨k₁, v₁⟩ := hd
    by_cases hk : k = k₁
    · subst hk
      have hp : p (k, v₁) = true := h v₁ (by simp)
      simp only [List.filter, hp, List.lookup, beq_self_eq_true]
    · have hbeq : (k == k₁) = false := by simp [hk]
      have htl : (tl.filter p).lookup k = tl.lookup k :=
        ih (fun v hv => h v (List.mem_cons_of_mem _ hv))
      cases hp : p (k₁, v₁) <;>
        simp only [List.filter, hp, List.lookup, hbeq, htl]

/-- A key of the group object is mapped to the group's value, wholesale. -/
theorem jsSpread_lookup_of_mem (a b : List (String × Json)) (k : String) (v : Json)
    (h : b.lookup k = some v) : (jsSpread a b).lookup k = some v := by
  unfold jsSpread
  cases ha : a.lookup k with
  | some w =>
    have hmap := lookup_map_override a b k
    rw [ha, h] at hmap
    exact lookup_append_some _ hmap
  | none =>
    have hmap := lookup_map_override a b k
    rw [ha] at hmap
    rw [lookup_append_none _ hmap]
    rw [lookup_filter_keep b k (fun w hw => by simp [ha])]
    exact h

/-- A key absent from the group object keeps the top-level value. -/
theorem jsSpread_lookup_of_none (a b : List (String × Json)) (k : String)
    (h : b.lookup k = none) : (jsSpread a b).lookup k = a.lookup k := by
  unfold jsSpread
  cases ha : a.lookup k with
  | some w =>
    have hmap := lookup_map_override a b k
    rw [ha, h] at hmap
    exact lookup_append_some _ hmap
  | none =>
    have hmap := lookup_map_override a b k
    rw [ha] at hmap
    rw [lookup_append_none _ hmap]
    rw [lookup_filter_keep b k (fun w hw => by simp [ha])]
    exact h

/-! ## C4 — shallow group merge -/

/-- C4: for every parsed config object and selected group object, the
active config produced by `getConfig` is the spread `{...config, ...group}`;
each key present in the group maps to the group's value wholesale (a
nested object such as a per-category threshold block replaces the
top-level one, with no recursive merge), and each key absent from the
group keeps the top-level value. -/
theorem C4_group_shallow_merge (cf gf grpFields : List (String × Json)) (gname k : String)
    (hg : gname ≠ "")
    (hgroups : cf.lookup "groups" = some (.obj gf))
    (hgrp : gf.lookup gname = some (.obj grpFields)) :
    getConfig (some (.ok (.obj cf))) (some gname) = .loaded (.obj (jsSpread cf grpFields)) ∧
    (∀ v, grpFields.lookup k = some v → (jsSpread cf grpFields).lookup k = some v) ∧
    (grpFields.lookup k = none → (jsSpread cf grpFields).lookup k = cf.lookup k) := by
  refine ⟨?_, fun v hv => jsSpread_lookup_of_mem cf grpFields k v hv,
    fun hv => jsSpread_lookup_of_none cf grpFields k hv⟩
  simp [getConfig, jsPropE, hg, hgroups, hgrp]


/-- Witness for `C4_group_shallow_merge`: selecting group `staging` of
`cfgWithGroup` replaces `categories` wholesale (the nested performance
thresholds are gone) and inherits `strategies` unchanged. -/
theorem C4_group_shallow_merge_witness :
    getConfig (some (.ok (.obj cfgWithGroup))) (some "staging") =
      .loaded (.obj (jsSpread cfgWithGroup [("categories", .obj [("seo", .obj [])])])) ∧
    (jsSpread cfgWithGroup [("categories", .obj [("seo", .obj [])])]).lookup "categories" =
      some (.obj [("seo", .obj [])]) ∧
    (jsSpread cfgWithGroup [("categories", .obj [("seo", .obj [])])]).lookup "strategies" =
      cfgWithGroup.lookup "strategies" := by
  have h := C4_group_shallow_merge cfgWithGroup
    [("staging", .obj [("categories", .obj [("seo", .obj [])])])]
    [("categories", .obj [("seo", .obj [])])] "staging" "categories"
    (by decide) rfl rfl
  have h2 := C4_group_shallow_merge cfgWithGroup
    [("staging", .obj [("categories", .obj [("seo", .obj [])])])]
    [("categories", .obj [("seo", .obj [])])] "staging" "strategies"
    (by decide) rfl rfl
  exact ⟨h.1, h.2.1 _ rfl, h2.2.2 rfl⟩

/-! ## Chunking lemmas -/

theorem chunkedAux_flatten {α : Type} (bs : ℕ) (hbs : 1 ≤ bs) :
    ∀ (fuel : ℕ) (l : List α), l.length ≤ fuel → (chunkedAux bs fuel l).flatten = l := by
  intro fuel
  induction fuel with
  | zero =>
    intro l hl
    cases l with
    | nil => rfl
    | cons x xs => simp at hl
  | succ n ih =>
    intro l hl
    cases l with
    | nil => rfl
    | cons x xs =>
      simp only [chunkedAux, List.flatten_cons]
      rw [ih ((x :: xs).drop bs) (by simp at hl ⊢; omega)]
      exact List.take_append_drop bs (x :: xs)

theorem chunked_flatten {α : Type} (bs : ℕ) (hbs : 1 ≤ bs) (l : List α) :
    (chunked bs l).flatten = l :=
  chunkedAux_flatten bs hbs l.length l le_rfl

theorem chunked_mem_length {α : Type} (bs : ℕ) :
    ∀ (fuel : ℕ) (l : List α) (c : List α), c ∈ chunkedAux bs fuel l → c.length ≤ bs := by
  intro fuel
  induction fuel with
  | zero =>
    intro l c hc
    cases l <;> simp [chunkedAux] at hc
  | succ n ih =>
    intro l c hc
    cases l with
    | nil => simp [chunkedAux] at hc
    | cons x xs =>
      simp only [chunkedAux, List.mem_cons] at hc
      rcases hc with h | h
      · subst h
        simp [min_le_left bs (x :: xs).length]
      · exact ih _ _ h

/-! ## Effective batch size -/

theorem effBatchSize_pos (cfg : Json) : 1 ≤ effBatchSize cfg := by
  unfold effBatchSize
  repeat' split
  all_goals try omega
  rename_i h
  have hq := Rat.num_pos.mpr h.1
  omega

theorem effBatchSize_default {cf : List (String × Json)}
    (h : cf.lookup "batchSize" = none) : effBatchSize (.obj cf) = 400 := by
  simp [effBatchSize, h]

theorem effBatchSize_configured {cf : List (String × Json)} {q : ℚ}
    (h : cf.lookup "batchSize" = some (.num q)) (hq : 0 < q) (hden : q.den = 1) :
    effBatchSize (.obj cf) = q.num.toNat := by
  simp [effBatchSize, h, hq, hden]

/-! ## mapM over Except -/

theorem mapM_ok_forall₂ {α β : Type} {f : α → Except String β} {p : α → β → Prop}
    (hf : ∀ a b, f a = .ok b → p a b) :
    ∀ {l : List α} {ys : List β}, l.mapM f = .ok ys → List.Forall₂ p l ys := by
  intro l
  induction l with
  | nil =>
    intro ys h
    simp only [List.mapM_nil, pure, Except.pure, Except.ok.injEq] at h
    subst h
    constructor
  | cons a tl ih =>
    intro ys h
    rw [List.mapM_cons] at h
    cases hfa : f a with
    | error e => rw [hfa] at h; simp [Bind.bind, Except.bind] at h
    | ok b =>
      rw [hfa] at h
      cases htl : tl.mapM f with
      | error e => rw [htl] at h; simp [Bind.bind, Except.bind] at h
      | ok bs =>
        rw [htl] at h
        simp only [Bind.bind, Except.bind, pure, Except.pure, Except.ok.injEq] at h
        subst h
        exact List.Forall₂.cons (hf a b hfa) (ih htl)

theorem forall₂_fun_eq_map {α β : Type} {g : β → α} {l : List α} {ys : List β}
    (h : List.Forall₂ (fun a b => g b = a) l ys) : ys.map g = l := by
  induction h with
  | nil => rfl
  | cons hab _ ih => simp only [List.map, hab, ih]

theorem forall₂_right_mem {α β : Type} {Q : β → Prop} {l : List α} {ys : List β}
    (h : List.Forall₂ (fun _ b => Q b) l ys) : ∀ b ∈ ys, Q b := by
  induction h with
  | nil => intro b hb; simp at hb
  | cons hab _ ih =>
    intro b hb
    rcases List.mem_cons.mp hb with hb' | hb'
    · subst hb'; exact hab
    · exact ih b hb'

/-! ## Results carry their input URL -/

theorem runTestsForUrlPagespeed_url {cfg : Json} {s : String} {u : Json} {o : FetchOutcome}
    {r : AuditResult} (h : runTestsForUrlPagespeed cfg s u o = .ok r) : r.url = u := by
  unfold runTestsForUrlPagespeed at h
  repeat' split at h
  all_goals simp_all
  all_goals (cases h; rfl)

theorem runTestsForUrlLighthouse_url {cfg : Json} {s : String} {u : Json} {o : ToolOutcome}
    {r : AuditResult} (h : runTestsForUrlLighthouse cfg s u o = .ok r) : r.url = u := by
  unfold runTestsForUrlLighthouse at h
  repeat' split at h
  all_goals simp_all
  all_goals (cases h; rfl)

theorem runStrategyPagespeed_urls {cfg : Json} {strategy : String} {urls : List Json}
    {outcome : String → Json → FetchOutcome} {sr : List AuditResult}
    (h : runStrategyPagespeed cfg strategy urls outcome = .ok sr) :
    sr.map AuditResult.url = urls := by
  unfold runStrategyPagespeed at h
  dsimp only at h
  cases hm : (chunked (effBatchSize cfg) urls).mapM
      (fun batch => batch.mapM
        (fun url => runTestsForUrlPagespeed cfg strategy url (outcome strategy url))) with
  | error e => rw [hm] at h; simp [Bind.bind, Except.bind] at h
  | ok rss =>
    rw [hm] at h
    simp only [Bind.bind, Except.bind, pure, Except.pure, Except.ok.injEq] at h
    subst h
    have hf : List.Forall₂ (fun batch rs => List.map AuditResult.url rs = batch)
        (chunked (effBatchSize cfg) urls) rss := by
      apply mapM_ok_forall₂ ?_ hm
      intro batch rs hb
      apply forall₂_fun_eq_map
      apply mapM_ok_forall₂ ?_ hb
      intro u r hr
      exact runTestsForUrlPagespeed_url hr
    calc List.map AuditResult.url rss.flatten
        = (rss.map (List.map AuditResult.url)).flatten := List.map_flatten _ _
      _ = (chunked (effBatchSize cfg) urls).flatten := by rw [forall₂_fun_eq_map hf]
      _ = urls := chunked_flatten _ (effBatchSize_pos cfg) urls

/-! ## Promise.all semantics -/

theorem fillSlots_length {α : Type} (tasks : List α) :
    ∀ (order : List ℕ) (slots : List (Option α)),
      (fillSlots tasks order slots).length = slots.length := by
  intro order
  induction order with
  | nil => intro slots; rfl
  | cons i rest ih =>
    intro slots
    rw [fillSlots, ih]
    simp

theorem fillSlots_getElem {α : Type} (tasks : List α) :
    ∀ (order : List ℕ) (slots : List (Option α)) (j : ℕ), j < slots.length →
      (fillSlots tasks order slots)[j]? =
        if j ∈ order then some tasks[j]? else slots[j]? := by
  intro order
  induction order with
  | nil =>
    intro slots j hj
    simp [fillSlots]
  | cons i rest ih =>
    intro slots j hj
    rw [fillSlots, ih _ j (by simpa using hj)]
    by_cases hmem : j ∈ rest
    · simp [hmem, List.mem_cons]
    · by_cases hji : j = i
      · subst hji
        simp [hmem, List.mem_cons, List.getElem?_set_self (by simpa using hj)]
      · have : i ≠ j := fun hc => hji hc.symm
        simp [hmem, List.mem_cons, hji, List.getElem?_set_ne this]

theorem filterMap_id_map_some {α : Type} (l : List α) :
    (l.map some).filterMap id = l := by
  induction l with
  | nil => rfl
  | cons a tl ih => simp [List.filterMap_cons, ih]

/-- Under any completion order that completes every task, `Promise.all`
resolves to the task results in task order. -/
theorem promiseAll_covers {α : Type} (tasks : List α) (order : List ℕ)
    (hcov : ∀ i, i < tasks.length → i ∈ order) :
    promiseAll tasks order = some tasks := by
  unfold promiseAll
  have hfin : fillSlots tasks order (List.replicate tasks.length none) = tasks.map some := by
    apply List.ext_getElem?
    intro j
    by_cases hj : j < tasks.length
    · rw [fillSlots_getElem tasks order _ j (by simpa using hj)]
      simp [hcov j hj, List.getElem?_eq_getElem hj]
    · have h1 : (fillSlots tasks order (List.replicate tasks.length none)).length ≤ j := by
        rw [fillSlots_length]
        simp
        omega
      have h2 : (tasks.map some).length ≤ j := by simp; omega
      rw [List.getElem?_eq_none h1, List.getElem?_eq_none h2]
  rw [hfin]
  have hall : (tasks.map some).all (·.isSome) = true := by
    simp [List.all_eq_true]
  simp only [hall, if_true, filterMap_id_map_some]

theorem runLighthouseStrategy_urls {cfg : Json} {strategy : String} {urls : List Json}
    {outcome : String → Json → ToolOutcome} {sr : List AuditResult}
    (h : urls.mapM
      (fun url => runTestsForUrlLighthouse cfg strategy url (outcome strategy url)) = .ok sr) :
    sr.map AuditResult.url = urls := by
  apply forall₂_fun_eq_map
  apply mapM_ok_forall₂ ?_ h
  intro u r hr
  exact runTestsForUrlLighthouse_url hr

theorem forall₂_const_map {α β γ : Type} {g : β → γ} {c : γ} {l : List α} {ys : List β}
    (h : List.Forall₂ (fun _ b => g b = c) l ys) : ys.map g = l.map (fun _ => c) := by
  induction h with
  | nil => rfl
  | cons hab _ ih => simp only [List.map, hab, ih]


/-! ## C6 — per-strategy output order equals input URL order -/

/-- C6: `Promise.all` assembles results in task order for every completion
order that completes all tasks, and for both engines every strategy's
result list carries the URLs in the configured input order whenever the
scheduler returns. -/
theorem C6_order_preserved (cfg : Json) (strategies : List String) (urls : List Json)
    (psOut : String → Json → FetchOutcome) (lhOut : String → Json → ToolOutcome)
    (res res' : List (List AuditResult)) (tasks : List AuditResult) (order : List ℕ)
    (hcov : ∀ i, i < tasks.length → i ∈ order)
    (hps : runPagespeed cfg strategies urls psOut = .ok res)
    (hlh : runLighthouse cfg strategies urls lhOut = .ok res') :
    promiseAll tasks order = some tasks ∧
    res.map (fun sr => sr.map AuditResult.url) = strategies.map (fun _ => urls) ∧
    res'.map (fun sr => sr.map AuditResult.url) = strategies.map (fun _ => urls) := by
  refine ⟨promiseAll_covers tasks order hcov, ?_, ?_⟩
  · apply forall₂_const_map
    apply mapM_ok_forall₂ ?_ hps
    intro s sr hs
    exact runStrategyPagespeed_urls hs
  · apply forall₂_const_map
    apply mapM_ok_forall₂ ?_ hlh
    intro s sr hs
    exact runLighthouseStrategy_urls hs

/-- Witness for `C6_order_preserved`: one strategy, two URLs, a PageSpeed
run where every request fails at the network level and a Lighthouse run
whose tool result lacks `lhr`; completion order `[1, 0]` (reversed). -/
theorem C6_order_preserved_witness :
    promiseAll auditTasks2 [1, 0] = some auditTasks2 ∧
    resPs2.map (fun sr => sr.map AuditResult.url) = ["mobile"].map (fun _ => urls2) ∧
    resPs2.map (fun sr => sr.map AuditResult.url) = ["mobile"].map (fun _ => urls2) :=
  C6_order_preserved cfgExample ["mobile"] urls2 psRejectAll lhNoLhr resPs2 resPs2
    auditTasks2 [1, 0] (by decide) (by rfl) (by rfl)

/-! ## C7 — bounded, chunked dispatch for the remote engine -/


/-- C7: every group of simultaneously in-flight PageSpeed requests has at
most `effBatchSize` elements; the chunks are consecutive and partition the
URL list; the effective batch size is the configured `batchSize` when it
is a positive integer and 400 when unconfigured. -/
theorem C7_bounded_concurrency (cfg : Json) (strategies : List String) (urls : List Json)
    (k : ℕ) (cf cf' : List (String × Json)) (q : ℚ)
    (hk : k ∈ inFlightSizes cfg strategies urls)
    (hq : 0 < q) (hden : q.den = 1)
    (hbs : cf.lookup "batchSize" = some (.num q))
    (hbs' : cf'.lookup "batchSize" = none) :
    k ≤ effBatchSize cfg ∧
    (chunked (effBatchSize cfg) urls).flatten = urls ∧
    effBatchSize (.obj cf) = q.num.toNat ∧
    effBatchSize (.obj cf') = 400 := by
  refine ⟨?_, chunked_flatten _ (effBatchSize_pos cfg) urls,
    effBatchSize_configured hbs hq hden, effBatchSize_default hbs'⟩
  rcases List.mem_flatMap.mp hk with ⟨s, _, hks⟩
  rcases List.mem_map.mp hks with ⟨c, hc, hlen⟩
  rw [← hlen]
  exact chunked_mem_length (effBatchSize cfg) _ urls c hc


/-- Witness for `C7_bounded_concurrency`: batch size 2 over three URLs
gives in-flight group sizes `[2, 1]`, all at most 2, and the chunks
`[A, B], [C]` flatten back to the URL list. -/
theorem C7_bounded_concurrency_witness :
    (2 ∈ inFlightSizes cfgBatch2 ["mobile"] urls3 ∧ 0 < (2 : ℚ) ∧ (2 : ℚ).den = 1) ∧
    (2 ≤ effBatchSize cfgBatch2 ∧
     (chunked (effBatchSize cfgBatch2) urls3).flatten = urls3 ∧
     effBatchSize (.obj [("batchSize", .num 2)]) = (2 : ℚ).num.toNat ∧
     effBatchSize (.obj ([] : List (String × Json))) = 400) :=
  ⟨⟨by decide, by decide, by decide⟩,
    C7_bounded_concurrency cfgBatch2 ["mobile"] urls3 2 [("batchSize", .num 2)] [] 2
      (by decide) (by decide) (by decide) rfl rfl⟩

/-! ## C2 — aggregate fail counts versus fail verdicts -/


/-- C2: counterexample.  With threshold 70 and score 65 the displayed
verdict is `warn` and the claim's fail count (number of `fail` cells) is
0, demanding exit code 0; but the code's reduce counts every score below
the *upper* threshold, giving fail = 1 and exit code 1. -/
theorem C2_counterexample :
    strategyFailTotal cfgExample (some catsExample) "mobile" [res65] = .ok ⟨1, 1⟩ ∧
    formatResult cfgExample (some 65) "performance" "mobile" = .warn ∧
    specFailVerdictCells cfgExample "mobile" [res65] = 0 ∧
    exitFromTallies 0 [⟨1, 1⟩] = 1 :=
  ⟨rfl, rfl, rfl, rfl⟩

theorem formatResult_not_pass (cfg : Json) (c strat : String) (s : ℚ) :
    (formatResult cfg (some s) c strat ≠ .pass) ↔
      s < effCut cfg c "threshold" strat 90 := by
  unfold formatResult
  by_cases h1 : s ≥ effCut cfg c "threshold" strat 90
  · simp only [h1, if_true]
    constructor
    · intro h
      exact absurd rfl h
    · intro h
      exact absurd h (not_lt.mpr h1)
  · simp only [h1, if_false]
    have hlt := lt_of_not_ge h1
    by_cases h2 : s ≥ effCut cfg c "lowerThreshold" strat 50 <;>
      simp only [h2, if_true, if_false] <;>
      exact ⟨fun _ => hlt, fun _ => by decide⟩

theorem tallyEntries_fold (cfg : Json) (strategy : String) :
    ∀ (entries : List (String × ℚ)) (acc : FailTotal),
      (entries.foldl (fun a p =>
        (⟨a.fail + (if p.2 < effCut cfg p.1 "threshold" strategy 90 then 1 else 0),
          a.total + 1⟩ : FailTotal)) acc) =
      ⟨acc.fail + entries.countP (fun p => decide (p.2 < effCut cfg p.1 "threshold" strategy 90)),
       acc.total + entries.length⟩ := by
  intro entries
  induction entries with
  | nil =>
    intro acc
    simp
  | cons p tl ih =>
    intro acc
    rw [List.foldl_cons, ih, List.countP_cons]
    refine congrArg₂ FailTotal.mk ?_ (by simp only [List.length_cons]; omega)
    by_cases hp : p.2 < effCut cfg p.1 "threshold" strategy 90 <;> simp [hp] <;> omega


theorem strategyFailTotal_sum (cfg : Json) (categoriesOpt : Option Json) (strategy : String)
    (ks : List String) (hk : jsObjectKeysOpt categoriesOpt = .ok ks) :
    ∀ (results : List AuditResult) (acc : FailTotal),
      results.foldlM (tallyResult cfg categoriesOpt strategy) acc =
        .ok ⟨acc.fail + (results.map (codeFailContrib cfg strategy ks)).sum,
             acc.total + (results.map (codeTotalContrib ks)).sum⟩ := by
  intro results
  induction results with
  | nil =>
    intro acc
    simp [List.foldlM, pure, Except.pure]
  | cons r rs ih =>
    intro acc
    have hstep : tallyResult cfg categoriesOpt strategy acc r =
        .ok ⟨acc.fail + codeFailContrib cfg strategy ks r,
             acc.total + codeTotalContrib ks r⟩ := by
      unfold tallyResult codeFailContrib codeTotalContrib
      by_cases he : r.lighthouse.isEmpty
      · simp [he, hk]
      · simp only [he, if_false]
        rw [tallyEntries_fold]
        refine congrArg Except.ok (congrArg₂ FailTotal.mk ?_ rfl)
        congr 1
        apply List.countP_congr
        intro p _
        simp only [decide_eq_true_eq]
        exact (formatResult_not_pass cfg p.1 strategy p.2).symm
    rw [List.foldlM_cons, hstep]
    simp only [Bind.bind, Except.bind]
    rw [ih]
    simp [Nat.add_assoc]

/-- C2 (amended): the code's per-strategy fail count equals, for each
result, the number of configured categories when the score map is empty,
else the number of scored categories whose verdict is *not `pass`* (both
`fail` and `warn` cells count, since the reduce compares against the upper
threshold only); the total counts every cell; and the exit code is 1 iff
some strategy's fail count is nonzero or it was already 1 from an earlier
fatal error. -/
theorem C2_fail_counts (cfg : Json) (categoriesOpt : Option Json) (strategy : String)
    (results : List AuditResult) (ft : FailTotal) (ks : List String)
    (preExit : ℕ) (tallies : List FailTotal)
    (hk : jsObjectKeysOpt categoriesOpt = .ok ks)
    (h : strategyFailTotal cfg categoriesOpt strategy results = .ok ft) :
    ft.fail = (results.map (codeFailContrib cfg strategy ks)).sum ∧
    ft.total = (results.map (codeTotalContrib ks)).sum ∧
    (exitFromTallies preExit tallies = 1 ↔
      (∃ t ∈ tallies, t.fail ≠ 0) ∨ preExit = 1) := by
  have hsum := strategyFailTotal_sum cfg categoriesOpt strategy ks hk results ⟨0, 0⟩
  unfold strategyFailTotal at h
  rw [hsum] at h
  cases h
  refine ⟨by simp, by simp, ?_⟩
  unfold exitFromTallies
  by_cases hany : tallies.any (fun t => decide (t.fail ≠ 0))
  · simp only [hany, if_true]
    simp only [List.any_eq_true, decide_eq_true_eq] at hany
    simp [hany]
  · simp only [hany, if_false]
    simp only [List.any_eq_true, decide_eq_true_eq] at hany
    push_neg at hany
    constructor
    · intro hp
      exact Or.inr hp
    · rintro (⟨t, ht, htf⟩ | hp)
      · exact absurd (hany t ht) (by simpa using htf)
      · exact hp

/-- Witness for `C2_fail_counts`: the warn-score run of the
counterexample, tallied by the code: fail = 1 (the warn cell counts),
total = 1, and the exit code is 1. -/
theorem C2_fail_counts_witness :
    (jsObjectKeysOpt (some catsExample) = .ok ["performance"] ∧
     strategyFailTotal cfgExample (some catsExample) "mobile" [res65] = .ok ⟨1, 1⟩) ∧
    ((1 : ℕ) = ([res65].map (codeFailContrib cfgExample "mobile" ["performance"])).sum ∧
     (1 : ℕ) = ([res65].map (codeTotalContrib ["performance"])).sum ∧
     (exitFromTallies 0 [⟨1, 1⟩] = 1 ↔
       (∃ t ∈ [(⟨1, 1⟩ : FailTotal)], t.fail ≠ 0) ∨ (0 : ℕ) = 1)) :=
  ⟨⟨rfl, rfl⟩,
    C2_fail_counts cfgExample (some catsExample) "mobile" [res65] ⟨1, 1⟩ ["performance"]
      0 [⟨1, 1⟩] rfl rfl⟩

/-! ## C9 — result categories absent from the config -/


/-- C9: counterexample.  The claim demands that a result category absent
from the configured categories contribute no cell (excluded from total and
fail counts), predicting `{fail := 0, total := 0}` for this run; the
code's reduce iterates over the *result's* categories, grades `pwa`
against the default threshold 90 and yields `{fail := 1, total := 1}`. -/
theorem C9_counterexample :
    configCategories cfgExample = ["performance"] ∧
    strategyFailTotal cfgExample (some catsExample) "mobile" [res9] = .ok ⟨1, 1⟩ :=
  ⟨rfl, rfl⟩

/-- C9 (amended): a result category absent from the config does not crash
the grader — the optional-chain lookup falls back to the default threshold
90 — but it is not ignored: it is counted in the total and counts as a
failure when its score is below 90. -/
theorem C9_unknown_category (cfg : Json) (categoriesOpt : Option Json) (strategy c : String)
    (q : ℚ) (u : Json) (acc : FailTotal)
    (hc : lookupCut cfg c "threshold" strategy = none) :
    tallyResult cfg categoriesOpt strategy acc ⟨u, strategy, [(c, q)]⟩ =
      .ok ⟨acc.fail + (if q < 90 then 1 else 0), acc.total + 1⟩ ∧
    effCut cfg c "threshold" strategy 90 = 90 := by
  have h90 := effCut_lookup_none (d := 90) hc
  refine ⟨?_, h90⟩
  simp [tallyResult, h90]

/-- Witness for `C9_unknown_category`: grading `res9` (pwa = 80, not in
`cfgExample`) contributes one failing cell. -/
theorem C9_unknown_category_witness :
    tallyResult cfgExample (some catsExample) "mobile" ⟨0, 0⟩ ⟨urlA, "mobile", [("pwa", 80)]⟩ =
      .ok ⟨0 + (if (80 : ℚ) < 90 then 1 else 0), 0 + 1⟩ ∧
    effCut cfgExample "pwa" "threshold" "mobile" 90 = 90 :=
  C9_unknown_category cfgExample (some catsExample) "mobile" "pwa" 80 urlA ⟨0, 0⟩ rfl

/-! ## C3 — engine error handling -/

theorem mapM_ok_of_all {α β : Type} {f : α → Except String β} {g : α → β}
    (hf : ∀ a, f a = .ok (g a)) : ∀ (l : List α), l.mapM f = .ok (l.map g) := by
  intro l
  induction l with
  | nil => rfl
  | cons a tl ih =>
    rw [List.mapM_cons, hf a]
    simp only [Bind.bind, Except.bind]
    rw [ih]
    rfl

theorem runTestsForUrlPagespeed_reject {cfg : Json} {ks : List String}
    (strategy : String) (url : Json) (msg : String)
    (hk : categoriesKeys cfg = .ok ks) (hne : ks ≠ []) :
    runTestsForUrlPagespeed cfg strategy url (.reject msg) = .ok ⟨url, strategy, []⟩ := by
  cases ks with
  | nil => exact absurd rfl hne
  | cons a tl => simp [runTestsForUrlPagespeed, hk]

/-- C3: counterexample.  `runAudit` can raise for both variants: a crash of
the `lighthouse` tool is not caught by `runTestsForUrlLighthouse` (there
is no `try`/`catch` around the launch and tool awaits, source lines
98-111), and a PageSpeed response whose truthy `lighthouseResult` lacks a
`categories` object makes `Object.entries(undefined)` throw outside the
`try` (source line 197). -/
theorem C3_counterexample :
    runTestsForUrlLighthouse cfgExample "mobile" urlA (.toolCrash "tool crashed") =
      .error "tool crashed" ∧
    runTestsForUrlPagespeed cfgExample "mobile" urlA
        (.ok (.obj [("lighthouseResult", .obj [("audits", .num 1)])])) =
      .error "TypeError: Object.entries of undefined" :=
  ⟨rfl, rfl⟩

/-- C3 (amended): for the remote-API variant, a rejected fetch/JSON parse
and a falsy `lighthouseResult` are caught and yield an empty-scores
AuditResult, and a run whose requests all fail this way still completes
with a full result grid (no batch, chunk, strategy or run is aborted); the
local-tool variant likewise recovers a falsy `lhr`, but a launch or tool
crash is NOT caught — it propagates and rejects the scheduler.  (A truthy
`lighthouseResult` without an object `categories` field also throws, for
both variants — see the counterexample.) -/
theorem C3_engine_errors (cfg : Json) (strategies : List String) (strategy : String)
    (url : Json) (msg : String) (ks : List String) (urls : List Json)
    (response : Json) (lhrR lhr : Option Json)
    (hk : categoriesKeys cfg = .ok ks) (hne : ks ≠ [])
    (hresp : jsPropE response "lighthouseResult" = .ok lhrR)
    (hfalsy : truthyOpt lhrR = false)
    (hlhr : truthyOpt lhr = false) :
    runTestsForUrlPagespeed cfg strategy url (.reject msg) = .ok ⟨url, strategy, []⟩ ∧
    runTestsForUrlPagespeed cfg strategy url (.ok response) = .ok ⟨url, strategy, []⟩ ∧
    runTestsForUrlLighthouse cfg strategy url (.ok lhr) = .ok ⟨url, strategy, []⟩ ∧
    runTestsForUrlLighthouse cfg strategy url (.toolCrash msg) = .error msg ∧
    runTestsForUrlLighthouse cfg strategy url (.launchCrash msg) = .error msg ∧
    runPagespeed cfg strategies urls (fun _ _ => .reject msg) =
      .ok (strategies.map (fun s => urls.map (fun u => ⟨u, s, []⟩))) := by
  obtain ⟨a, tl, rfl⟩ : ∃ a tl, ks = a :: tl := by
    cases ks with
    | nil => exact absurd rfl hne
    | cons a tl => exact ⟨a, tl, rfl⟩
  refine ⟨by simp [runTestsForUrlPagespeed, hk], ?_, ?_, ?_, ?_, ?_⟩
  · simp [runTestsForUrlPagespeed, hk, hresp, hfalsy]
  · simp [runTestsForUrlLighthouse, hk, hlhr]
  · simp [runTestsForUrlLighthouse, hk]
  · simp [runTestsForUrlLighthouse, hk]
  · apply mapM_ok_of_all
    intro s
    unfold runStrategyPagespeed
    dsimp only
    rw [mapM_ok_of_all (g := fun batch => batch.map (fun u => ⟨u, s, []⟩))
      (fun batch => mapM_ok_of_all
        (fun u => runTestsForUrlPagespeed_reject s u msg hk hne) batch) _]
    simp only [Bind.bind, Except.bind, pure, Except.pure]
    rw [← List.map_flatten, chunked_flatten _ (effBatchSize_pos cfg) urls]

/-- Witness for `C3_engine_errors`: concrete config `cfgExample`, one
strategy, two URLs, a response without `lighthouseResult`. -/
theorem C3_engine_errors_witness :
    (categoriesKeys cfgExample = .ok ["performance"] ∧
     jsPropE (.obj [("error", .str "quota")]) "lighthouseResult" = .ok none) ∧
    (runTestsForUrlPagespeed cfgExample "mobile" urlA (.reject "network failure") =
       .ok ⟨urlA, "mobile", []⟩ ∧
     runTestsForUrlPagespeed cfgExample "mobile" urlA (.ok (.obj [("error", .str "quota")])) =
       .ok ⟨urlA, "mobile", []⟩ ∧
     runTestsForUrlLighthouse cfgExample "mobile" urlA (.ok none) = .ok ⟨urlA, "mobile", []⟩ ∧
     runTestsForUrlLighthouse cfgExample "mobile" urlA (.toolCrash "network failure") =
       .error "network failure" ∧
     runTestsForUrlLighthouse cfgExample "mobile" urlA (.launchCrash "network failure") =
       .error "network failure" ∧
     runPagespeed cfgExample ["mobile"] urls2 (fun _ _ => .reject "network failure") =
       .ok (["mobile"].map (fun s => urls2.map (fun u => ⟨u, s, []⟩)))) :=
  ⟨⟨rfl, rfl⟩,
    C3_engine_errors cfgExample ["mobile"] "mobile" urlA "network failure" ["performance"]
      urls2 (.obj [("error", .str "quota")]) none none rfl (by decide) rfl rfl rfl⟩

/-! ## Helper lemmas for the main-model scenarios -/

theorem getConfig_no_groups {cf : List (String × Json)} {g : String}
    (hg : g ≠ "") (hgr : cf.lookup "groups" = none) :
    getConfig (some (.ok (.obj cf))) (some g) = .loaded (.obj cf) := by
  simp [getConfig, jsPropE, hg, hgr]

theorem exitFromTallies_one (tallies : List FailTotal) :
    exitFromTallies 1 tallies = 1 := by
  unfold exitFromTallies
  split <;> rfl

theorem mapM_error_head {α β : Type} {f : α → Except String β} {a : α} {l : List α} {e : String}
    (h : f a = .error e) : (a :: l).mapM f = .error e := by
  rw [List.mapM_cons, h]
  rfl

theorem chunked_cons_head {α : Type} (bs : ℕ) (hbs : 1 ≤ bs) (u : α) (us : List α) :
    ∃ b rest, chunked bs (u :: us) = (u :: b) :: rest := by
  obtain ⟨n, rfl⟩ : ∃ n, bs = n + 1 := ⟨bs - 1, by omega⟩
  exact ⟨us.take n, chunkedAux (n + 1) us.length ((u :: us).drop (n + 1)), rfl⟩

theorem runTestsForUrlPagespeed_keysError {cfg : Json} {e : String}
    (s : String) (u : Json) (o : FetchOutcome) (hk : categoriesKeys cfg = .error e) :
    runTestsForUrlPagespeed cfg s u o = .error e := by
  simp [runTestsForUrlPagespeed, hk]

theorem runTestsForUrlPagespeed_emptyCats {cfg : Json}
    (s : String) (u : Json) (o : FetchOutcome) (hk : categoriesKeys cfg = .ok []) :
    runTestsForUrlPagespeed cfg s u o = .ok ⟨u, s, []⟩ := by
  simp [runTestsForUrlPagespeed, hk]

theorem runTestsForUrlLighthouse_keysError {cfg : Json} {e : String}
    (s : String) (u : Json) (o : ToolOutcome) (hk : categoriesKeys cfg = .error e) :
    runTestsForUrlLighthouse cfg s u o = .error e := by
  simp [runTestsForUrlLighthouse, hk]

theorem chunkError_false {cfg : Json} {strategy : String}
    {outcome : String → Json → FetchOutcome}
    (hok : ∀ url, ∃ r, runTestsForUrlPagespeed cfg strategy url (outcome strategy url) = .ok r)
    (b : List Json) : chunkError cfg strategy outcome b = false := by
  unfold chunkError
  rw [List.any_eq_false]
  intro u hu
  obtain ⟨r, hr⟩ := hok u
  simp [hr]

theorem batchesDispatch_zero {cfg : Json} {strategy : String}
    {outcome : String → Json → FetchOutcome}
    (h0 : pagespeedDispatchesPerUrl cfg = 0)
    (hok : ∀ url, ∃ r, runTestsForUrlPagespeed cfg strategy url (outcome strategy url) = .ok r) :
    ∀ bs : List (List Json), batchesDispatch cfg strategy outcome bs = (0, false) := by
  intro bs
  induction bs with
  | nil => rfl
  | cons b rest ih =>
    simp [batchesDispatch, chunkError_false hok, h0, ih]

theorem runPagespeedCalls_zero {cfg : Json} {urls : List Json}
    {outcome : String → Json → FetchOutcome}
    (h0 : pagespeedDispatchesPerUrl cfg = 0)
    (hok : ∀ s url, ∃ r, runTestsForUrlPagespeed cfg s url (outcome s url) = .ok r) :
    ∀ strategies : List String, runPagespeedCalls cfg strategies urls outcome = 0 := by
  have haux : ∀ strategies : List String,
      strategies.foldl (fun acc strategy =>
        if acc.2 then acc
        else
          let r := batchesDispatch cfg strategy outcome (chunked (effBatchSize cfg) urls)
          (acc.1 + r.1, r.2)) ((0 : ℕ), false) = (0, false) := by
    intro strategies
    induction strategies with
    | nil => rfl
    | cons s rest ih =>
      rw [List.foldl_cons]
      simpa [batchesDispatch_zero h0 (hok s)] using ih
  intro strategies
  unfold runPagespeedCalls
  rw [haux]

theorem runStrategyPagespeed_keysError {cfg : Json} {s : String} {e : String}
    (u : Json) (us : List Json) (ps : String → Json → FetchOutcome)
    (hk : categoriesKeys cfg = .error e) :
    runStrategyPagespeed cfg s (u :: us) ps = .error e := by
  obtain ⟨b, rest, hch⟩ := chunked_cons_head (effBatchSize cfg) (effBatchSize_pos cfg) u us
  unfold runStrategyPagespeed
  dsimp only
  have hinner : (u :: b).mapM (fun url => runTestsForUrlPagespeed cfg s url (ps s url)) =
      .error e :=
    mapM_error_head (runTestsForUrlPagespeed_keysError s u (ps s u) hk)
  have houter : ((u :: b) :: rest).mapM
      (fun batch => batch.mapM (fun url => runTestsForUrlPagespeed cfg s url (ps s url))) =
      .error e :=
    mapM_error_head hinner
  rw [hch, houter]
  rfl

theorem sum_map_zero {α : Type} {f : α → ℕ} (hf : ∀ a, f a = 0) (l : List α) :
    (l.map f).sum = 0 := by
  induction l with
  | nil => rfl
  | cons a tl ih => simp [hf a, ih]

theorem mainRun_noUrls_noArg {cf : List (String × Json)}
    (hu : cf.lookup "urls" = none)
    (ps : String → Json → FetchOutcome) (lh : String → Json → ToolOutcome) :
    mainRun (some (.ok (.obj cf))) none ps lh = ⟨1, 0⟩ := by
  simp [mainRun, getConfig, urlsFirstKey, jsPropE, hu, jsObjectKeysOpt]

theorem mainRun_noUrls {cf : List (String × Json)} {g : String}
    (hg : g ≠ "") (hgr : cf.lookup "groups" = none) (hu : cf.lookup "urls" = none)
    (ps : String → Json → FetchOutcome) (lh : String → Json → ToolOutcome) :
    mainRun (some (.ok (.obj cf))) (some g) ps lh = ⟨1, 0⟩ := by
  unfold mainRun
  rw [getConfig_no_groups hg hgr]
  simp [jsPropE, hu, lengthTruthy, jsLengthOpt]

theorem mainRun_emptyUrls {cf : List (String × Json)} {g : String}
    (hg : g ≠ "") (hgr : cf.lookup "groups" = none)
    (hu : cf.lookup "urls" = some (.arr []))
    (ps : String → Json → FetchOutcome) (lh : String → Json → ToolOutcome) :
    mainRun (some (.ok (.obj cf))) (some g) ps lh = ⟨1, 0⟩ := by
  unfold mainRun
  rw [getConfig_no_groups hg hgr]
  simp [jsPropE, hu, lengthTruthy, jsLengthOpt]

theorem mainRun_noStrategies {cf : List (String × Json)} {g : String} {u : Json} {us : List Json}
    (hg : g ≠ "") (hgr : cf.lookup "groups" = none)
    (hu : cf.lookup "urls" = some (.arr (u :: us)))
    (hs : cf.lookup "strategies" = none)
    (ps : String → Json → FetchOutcome) (lh : String → Json → ToolOutcome) :
    mainRun (some (.ok (.obj cf))) (some g) ps lh = ⟨1, 0⟩ := by
  unfold mainRun
  rw [getConfig_no_groups hg hgr]
  simp [jsPropE, hu, hs, lengthTruthy, jsLengthOpt]

theorem mainRun_emptyStrategies {cf : List (String × Json)} {g : String} {u : Json}
    {us : List Json}
    (hg : g ≠ "") (hgr : cf.lookup "groups" = none)
    (hu : cf.lookup "urls" = some (.arr (u :: us)))
    (hs : cf.lookup "strategies" = some (.arr []))
    (ps : String → Json → FetchOutcome) (lh : String → Json → ToolOutcome) :
    mainRun (some (.ok (.obj cf))) (some g) ps lh = ⟨1, 0⟩ := by
  unfold mainRun
  rw [getConfig_no_groups hg hgr]
  simp [jsPropE, hu, hs, lengthTruthy, jsLengthOpt]

theorem categoriesKeys_none {cf : List (String × Json)}
    (hc : cf.lookup "categories" = none) :
    categoriesKeys (.obj cf) = .error "TypeError: Object.keys of undefined" := by
  simp [categoriesKeys, jsPropE, hc, jsObjectKeysOpt]

theorem categoriesKeys_emptyObj {cf : List (String × Json)}
    (hc : cf.lookup "categories" = some (.obj [])) :
    categoriesKeys (.obj cf) = .ok [] := by
  simp [categoriesKeys, jsPropE, hc, jsObjectKeysOpt]

theorem runPagespeedCalls_keysError_single {cfg : Json} {e : String} (s : String)
    (u : Json) (us : List Json) (ps : String → Json → FetchOutcome)
    (hk : categoriesKeys cfg = .error e) :
    runPagespeedCalls cfg [s] (u :: us) ps = 0 := by
  obtain ⟨b, rest, hch⟩ := chunked_cons_head (effBatchSize cfg) (effBatchSize_pos cfg) u us
  have hperUrl : pagespeedDispatchesPerUrl cfg = 0 := by
    simp [pagespeedDispatchesPerUrl, hk]
  have hchunkErr : chunkError cfg s ps (u :: b) = true := by
    simp [chunkError, runTestsForUrlPagespeed_keysError s u (ps s u) hk]
  have hbd : batchesDispatch cfg s ps (chunked (effBatchSize cfg) (u :: us)) = (0, true) := by
    rw [hch]
    unfold batchesDispatch
    rw [hchunkErr]
    simp [hperUrl]
  unfold runPagespeedCalls
  rw [List.foldl_cons, List.foldl_nil]
  simp [hbd]

theorem mainRun_noCategories {cf : List (String × Json)} {g s : String} {u : Json}
    {us : List Json}
    (hg : g ≠ "") (hgr : cf.lookup "groups" = none)
    (hu : cf.lookup "urls" = some (.arr (u :: us)))
    (hs : cf.lookup "strategies" = some (.arr [.str s]))
    (hc : cf.lookup "categories" = none)
    (he : cf.lookup "engine" = none)
    (ps : String → Json → FetchOutcome) (lh : String → Json → ToolOutcome) :
    mainRun (some (.ok (.obj cf))) (some g) ps lh = ⟨1, 0⟩ := by
  have hk := categoriesKeys_none hc
  have hrun : runPagespeed (.obj cf) [s] (u :: us) ps =
      .error "TypeError: Object.keys of undefined" :=
    mapM_error_head (runStrategyPagespeed_keysError u us ps hk)
  have hcalls := runPagespeedCalls_keysError_single s u us ps hk
  unfold mainRun
  rw [getConfig_no_groups hg hgr]
  simp [jsPropE, hu, hs, hc, he, lengthTruthy, jsLengthOpt, allStrings, hrun, hcalls]

theorem runStrategyPagespeed_allOk {cfg : Json} {s : String} {urls : List Json}
    {ps : String → Json → FetchOutcome}
    (hall : ∀ u, runTestsForUrlPagespeed cfg s u (ps s u) = .ok ⟨u, s, []⟩) :
    runStrategyPagespeed cfg s urls ps = .ok (urls.map (fun u => ⟨u, s, []⟩)) := by
  unfold runStrategyPagespeed
  dsimp only
  rw [mapM_ok_of_all (g := fun batch => batch.map (fun u => ⟨u, s, []⟩))
    (fun batch => mapM_ok_of_all hall batch) _]
  simp only [Bind.bind, Except.bind, pure, Except.pure]
  rw [← List.map_flatten, chunked_flatten _ (effBatchSize_pos cfg) urls]

theorem mainRun_emptyCategories {cf : List (String × Json)} {g s : String} {u : Json}
    {us : List Json}
    (hg : g ≠ "") (hgr : cf.lookup "groups" = none)
    (hu : cf.lookup "urls" = some (.arr (u :: us)))
    (hs : cf.lookup "strategies" = some (.arr [.str s]))
    (hc : cf.lookup "categories" = some (.obj []))
    (he : cf.lookup "engine" = none)
    (ps : String → Json → FetchOutcome) (lh : String → Json → ToolOutcome) :
    mainRun (some (.ok (.obj cf))) (some g) ps lh = ⟨0, 0⟩ := by
  have hk := categoriesKeys_emptyObj hc
  have hok : ∀ u', runTestsForUrlPagespeed (.obj cf) s u' (ps s u') = .ok ⟨u', s, []⟩ :=
    fun u' => runTestsForUrlPagespeed_emptyCats s u' (ps s u') hk
  have hrun : runPagespeed (.obj cf) [s] (u :: us) ps =
      .ok [(u :: us).map (fun u' => ⟨u', s, []⟩)] := by
    unfold runPagespeed
    have hall := mapM_ok_of_all
      (f := fun s' => runStrategyPagespeed (.obj cf) s' (u :: us) ps)
      (g := fun s' => (u :: us).map (fun u' => (⟨u', s', []⟩ : AuditResult)))
      (fun s' => runStrategyPagespeed_allOk
        (fun u' => runTestsForUrlPagespeed_emptyCats s' u' (ps s' u') hk)) [s]
    simpa using hall
  have hcalls : runPagespeedCalls (.obj cf) [s] (u :: us) ps = 0 :=
    runPagespeedCalls_zero (by simp [pagespeedDispatchesPerUrl, hk])
      (fun s' u' => ⟨⟨u', s', []⟩, runTestsForUrlPagespeed_emptyCats s' u' (ps s' u') hk⟩) [s]
  have htally : strategyFailTotal (.obj cf) (some (.obj [])) s
      ((u :: us).map (fun u' => ⟨u', s, []⟩)) = .ok ⟨0, 0⟩ := by
    unfold strategyFailTotal
    rw [strategyFailTotal_sum (.obj cf) (some (.obj [])) s [] (by simp [jsObjectKeysOpt])
      ((u :: us).map (fun u' => ⟨u', s, []⟩)) ⟨0, 0⟩]
    rw [List.map_map, List.map_map]
    have h1 : ((u :: us).map (codeFailContrib (.obj cf) s [] ∘ fun u' => ⟨u', s, []⟩)).sum = 0 :=
      sum_map_zero (fun a => by simp [codeFailContrib]) (u :: us)
    have h2 : ((u :: us).map (codeTotalContrib [] ∘ fun u' => ⟨u', s, []⟩)).sum = 0 :=
      sum_map_zero (fun a => by simp [codeTotalContrib]) (u :: us)
    rw [h1, h2]
  unfold mainRun
  rw [getConfig_no_groups hg hgr]
  simp only [List.map_cons] at htally
  simp [jsPropE, hu, hs, hc, he, lengthTruthy, jsLengthOpt, allStrings, hrun, hcalls,
    htally, List.mapM.loop, exitFromTallies]

theorem mainRun_badEngine {cf : List (String × Json)} {g e : String}
    (hg : g ≠ "") (hgr : cf.lookup "groups" = none)
    (he : cf.lookup "engine" = some (.str e))
    (he1 : e ≠ "pagespeed") (he2 : e ≠ "lighthouse")
    (ps : String → Json → FetchOutcome) (lh : String → Json → ToolOutcome) :
    (mainRun (some (.ok (.obj cf))) (some g) ps lh).exitCode = 1 := by
  unfold mainRun
  rw [getConfig_no_groups hg hgr]
  simp only [jsPropE, he, Option.getD_some, Option.some.injEq, he1, he2, false_or, or_self,
    if_false]
  repeat' split
  all_goals simp [exitFromTallies_one]

/-! ## C5 — fatal configuration errors -/


/-- C5: counterexample.  An empty `categories` object is a missing/empty
required key per the claim, yet the run is not aborted and exits 0 (first
conjunct: exit code 0, and indeed 0 backend dispatches only because every
URL test returns early).  An unsupported engine sets exit code 1 but does
NOT abort (the validation branch lacks a `return`): the run proceeds on
the lighthouse path and dispatches an audit — `backendCalls = 1 ≠ 0` —
contradicting "aborts before any audit is dispatched". -/
theorem C5_counterexample :
    mainRun (some (.ok cfgEmptyCats)) (some "g") psRejectAll lhNoLhr = ⟨0, 0⟩ ∧
    mainRun (some (.ok cfgBadEngine)) (some "g") psRejectAll lhNoLhr = ⟨1, 1⟩ :=
  ⟨rfl, rfl⟩

/-- C5 (amended): a missing config file, unparsable JSON, a missing `urls`
key, empty `urls`, and missing or empty `strategies` abort before any
audit with exit code 1; a missing `categories` key also yields exit code 1
with no backend dispatch (via an uncaught `TypeError` thrown by the first
URL test before its request is issued); but an *empty* `categories` object
is not fatal — the run completes with no backend dispatch and exit code 0 —
and an unsupported `engine` value sets exit code 1 without aborting: the
run proceeds on the lighthouse path (see the counterexample for the
dispatched audit). -/
theorem C5_fatal_config (argv3 : Option String) (parseMsg g e s : String)
    (u : Json) (us : List Json)
    (ps : String → Json → FetchOutcome) (lh : String → Json → ToolOutcome)
    (cfA cfB cfC cfD cfE cfF cfG cfH : List (String × Json))
    (hg : g ≠ "")
    (hA : cfA.lookup "urls" = none)
    (hBg : cfB.lookup "groups" = none) (hBu : cfB.lookup "urls" = none)
    (hCg : cfC.lookup "groups" = none) (hCu : cfC.lookup "urls" = some (.arr []))
    (hDg : cfD.lookup "groups" = none) (hDu : cfD.lookup "urls" = some (.arr (u :: us)))
    (hDs : cfD.lookup "strategies" = none)
    (hEg : cfE.lookup "groups" = none) (hEu : cfE.lookup "urls" = some (.arr (u :: us)))
    (hEs : cfE.lookup "strategies" = some (.arr []))
    (hFg : cfF.lookup "groups" = none) (hFu : cfF.lookup "urls" = some (.arr (u :: us)))
    (hFs : cfF.lookup "strategies" = some (.arr [.str s]))
    (hFc : cfF.lookup "categories" = none) (hFe : cfF.lookup "engine" = none)
    (hGg : cfG.lookup "groups" = none) (hGu : cfG.lookup "urls" = some (.arr (u :: us)))
    (hGs : cfG.lookup "strategies" = some (.arr [.str s]))
    (hGc : cfG.lookup "categories" = some (.obj [])) (hGe : cfG.lookup "engine" = none)
    (hHg : cfH.lookup "groups" = none) (hHe : cfH.lookup "engine" = some (.str e))
    (he1 : e ≠ "pagespeed") (he2 : e ≠ "lighthouse") :
    mainRun none argv3 ps lh = ⟨1, 0⟩ ∧
    mainRun (some (.error parseMsg)) argv3 ps lh = ⟨1, 0⟩ ∧
    mainRun (some (.ok (.obj cfA))) none ps lh = ⟨1, 0⟩ ∧
    mainRun (some (.ok (.obj cfB))) (some g) ps lh = ⟨1, 0⟩ ∧
    mainRun (some (.ok (.obj cfC))) (some g) ps lh = ⟨1, 0⟩ ∧
    mainRun (some (.ok (.obj cfD))) (some g) ps lh = ⟨1, 0⟩ ∧
    mainRun (some (.ok (.obj cfE))) (some g) ps lh = ⟨1, 0⟩ ∧
    mainRun (some (.ok (.obj cfF))) (some g) ps lh = ⟨1, 0⟩ ∧
    mainRun (some (.ok (.obj cfG))) (some g) ps lh = ⟨0, 0⟩ ∧
    (mainRun (some (.ok (.obj cfH))) (some g) ps lh).exitCode = 1 :=
  ⟨rfl, rfl,
   mainRun_noUrls_noArg hA ps lh,
   mainRun_noUrls hg hBg hBu ps lh,
   mainRun_emptyUrls hg hCg hCu ps lh,
   mainRun_noStrategies hg hDg hDu hDs ps lh,
   mainRun_emptyStrategies hg hEg hEu hEs ps lh,
   mainRun_noCategories hg hFg hFu hFs hFc hFe ps lh,
   mainRun_emptyCategories hg hGg hGu hGs hGc hGe ps lh,
   mainRun_badEngine hg hHg hHe he1 he2 ps lh⟩

/-- Witness for `C5_fatal_config`: concrete minimal configs for every
fatal and non-fatal scenario. -/
theorem C5_fatal_config_witness :
    ("chrome" ≠ "pagespeed" ∧ ("staging" : String) ≠ "") ∧
    (mainRun none none psRejectAll lhNoLhr = ⟨1, 0⟩ ∧
     mainRun (some (.error "SyntaxError")) none psRejectAll lhNoLhr = ⟨1, 0⟩ ∧
     mainRun (some (.ok (.obj [("strategies", .arr [.str "mobile"])]))) none
       psRejectAll lhNoLhr = ⟨1, 0⟩ ∧
     mainRun (some (.ok (.obj [("strategies", .arr [.str "mobile"])]))) (some "staging")
       psRejectAll lhNoLhr = ⟨1, 0⟩ ∧
     mainRun (some (.ok (.obj [("urls", .arr [])]))) (some "staging")
       psRejectAll lhNoLhr = ⟨1, 0⟩ ∧
     mainRun (some (.ok (.obj [("urls", .arr [urlA])]))) (some "staging")
       psRejectAll lhNoLhr = ⟨1, 0⟩ ∧
     mainRun (some (.ok (.obj [("urls", .arr [urlA]), ("strategies", .arr [])])))
       (some "staging") psRejectAll lhNoLhr = ⟨1, 0⟩ ∧
     mainRun (some (.ok (.obj [("urls", .arr [urlA]), ("strategies", .arr [.str "mobile"])])))
       (some "staging") psRejectAll lhNoLhr = ⟨1, 0⟩ ∧
     mainRun (some (.ok (.obj [("urls", .arr [urlA]), ("strategies", .arr [.str "mobile"]),
         ("categories", .obj [])]))) (some "staging") psRejectAll lhNoLhr = ⟨0, 0⟩ ∧
     (mainRun (some (.ok (.obj [("engine", .str "chrome")]))) (some "staging")
       psRejectAll lhNoLhr).exitCode = 1) :=
  ⟨⟨by decide, by decide⟩,
    C5_fatal_config none "SyntaxError" "staging" "chrome" "mobile" urlA []
      psRejectAll lhNoLhr
      [("strategies", .arr [.str "mobile"])]
      [("strategies", .arr [.str "mobile"])]
      [("urls", .arr [])]
      [("urls", .arr [urlA])]
      [("urls", .arr [urlA]), ("strategies", .arr [])]
      [("urls", .arr [urlA]), ("strategies", .arr [.str "mobile"])]
      [("urls", .arr [urlA]), ("strategies", .arr [.str "mobile"]), ("categories", .obj [])]
      [("engine", .str "chrome")]
      (by decide) rfl rfl rfl rfl rfl rfl rfl rfl rfl rfl rfl rfl rfl rfl rfl rfl rfl rfl
      rfl rfl rfl rfl rfl (by decide) (by decide)⟩

/-! ## C8 — the config is re-read at every access -/

/-- C8: counterexample.  In a minimal successful PageSpeed run (one
strategy, one URL, one category, the request failing at the network level
and recovered), `getConfig()` — which re-reads, re-parses and re-merges
the file — executes 5 times (main IIFE, `runPagespeed`, the URL test, the
table, and the per-cell `formatResult`), not once. -/
theorem C8_counterexample :
    mainCfgCalls (some (.ok cfgExample)) (some "g") psRejectAll lhNoLhr = 5 ∧
    mainCfgCalls (some (.ok cfgExample)) (some "g") psRejectAll lhNoLhr ≠ 1 :=
  ⟨rfl, by decide⟩

theorem batchesCfgCalls_of_ok {cfg : Json} {strategy : String}
    {outcome : String → Json → FetchOutcome} {k : ℕ}
    (hcount : ∀ url, runTestsForUrlPagespeedCfgCalls cfg (outcome strategy url) = k)
    (hok : ∀ url, ∃ r, runTestsForUrlPagespeed cfg strategy url (outcome strategy url) = .ok r) :
    ∀ bs : List (List Json), batchesCfgCalls cfg strategy outcome bs = bs.flatten.length * k := by
  intro bs
  induction bs with
  | nil => simp [batchesCfgCalls]
  | cons b rest ih =>
    have hsum : (b.map
        (fun url => runTestsForUrlPagespeedCfgCalls cfg (outcome strategy url))).sum =
        b.length * k := by
      induction b with
      | nil => simp
      | cons u tl ihb => simp [hcount, ihb, Nat.succ_mul, Nat.add_comm]
    simp [batchesCfgCalls, chunkError_false hok, hsum, ih, Nat.add_mul]

theorem runPagespeedCfgCalls_single {cfg : Json} {s : String} {urls : List Json}
    {outcome : String → Json → FetchOutcome} {k : ℕ}
    (hcount : ∀ url, runTestsForUrlPagespeedCfgCalls cfg (outcome s url) = k)
    (hok : ∀ url, ∃ r, runTestsForUrlPagespeed cfg s url (outcome s url) = .ok r) :
    runPagespeedCfgCalls cfg [s] urls outcome = 1 + urls.length * k := by
  unfold runPagespeedCfgCalls
  rw [List.foldl_cons, List.foldl_nil]
  simp [batchesCfgCalls_of_ok hcount hok, chunked_flatten _ (effBatchSize_pos cfg) urls]

/-- C8 (amended): the legacy accessor pattern means the Active Config is
*not* resolved once: every component re-reads and re-merges it (more than
once per run — in a one-strategy all-rejected PageSpeed run, once in main,
once in the scheduler, once per URL test, once per table and once per
cell).  Every operation still observes one consistent config view, because
`getConfig` is a deterministic function of the (fixed) file content and
argv. -/
theorem C8_config_reread (file : Option (Except String Json)) (g' : Option String)
    (l₁ l₂ : ConfigLoad) (cf : List (String × Json)) (g s c msg : String) (v u : Json)
    (us : List Json) (cats : List (String × Json))
    (ps : String → Json → FetchOutcome) (lh : String → Json → ToolOutcome)
    (hdet₁ : getConfig file g' = l₁) (hdet₂ : getConfig file g' = l₂)
    (hg : g ≠ "") (hgr : cf.lookup "groups" = none)
    (hu : cf.lookup "urls" = some (.arr (u :: us)))
    (hs : cf.lookup "strategies" = some (.arr [.str s]))
    (hc : cf.lookup "categories" = some (.obj ((c, v) :: cats)))
    (he : cf.lookup "engine" = none)
    (hps : ∀ s' u', ps s' u' = .reject msg) :
    l₁ = l₂ ∧
    mainCfgCalls (some (.ok (.obj cf))) (some g) ps lh =
      1 + (1 + (u :: us).length * 1) + (1 + (u :: us).length * ((c, v) :: cats).length) ∧
    1 < mainCfgCalls (some (.ok (.obj cf))) (some g) ps lh := by
  have hkeys : categoriesKeys (.obj cf) = .ok (c :: cats.map (·.1)) := by
    simp [categoriesKeys, jsPropE, hc, jsObjectKeysOpt]
  have hcount : ∀ u', runTestsForUrlPagespeedCfgCalls (.obj cf) (ps s u') = 1 := by
    intro u'
    rw [hps]
    simp [runTestsForUrlPagespeedCfgCalls, hkeys]
  have hok : ∀ u', runTestsForUrlPagespeed (.obj cf) s u' (ps s u') = .ok ⟨u', s, []⟩ := by
    intro u'
    rw [hps]
    exact runTestsForUrlPagespeed_reject s u' msg hkeys (by simp)
  have hstrat : runStrategyPagespeed (.obj cf) s (u :: us) ps =
      .ok ((u :: us).map (fun u' => ⟨u', s, []⟩)) :=
    runStrategyPagespeed_allOk hok
  have hrun : runPagespeed (.obj cf) [s] (u :: us) ps =
      .ok [(u :: us).map (fun u' => ⟨u', s, []⟩)] := by
    unfold runPagespeed
    rw [List.mapM_cons, hstrat, List.mapM_nil]
    rfl
  have hengine : runPagespeedCfgCalls (.obj cf) [s] (u :: us) ps = 1 + (u :: us).length * 1 :=
    runPagespeedCfgCalls_single hcount (fun u' => ⟨_, hok u'⟩)
  have hcalls : mainCfgCalls (some (.ok (.obj cf))) (some g) ps lh =
      1 + (1 + (u :: us).length * 1) + (1 + (u :: us).length * ((c, v) :: cats).length) := by
    unfold mainCfgCalls
    rw [getConfig_no_groups hg hgr]
    simp [jsPropE, hu, hs, hc, he, lengthTruthy, jsLengthOpt, allStrings, hrun, hengine,
      getResultsTableCfgCalls, configCategoriesLen, hkeys]
  refine ⟨hdet₁ ▸ hdet₂, hcalls, ?_⟩
  rw [hcalls]
  omega

/-- Witness for `C8_config_reread`: `cfgExample`'s fields, one URL, one
category, all requests rejected: 5 calls. -/
theorem C8_config_reread_witness :
    (ConfigLoad.notFound = ConfigLoad.notFound ∧
     mainCfgCalls (some (.ok (.obj
        [("categories", .obj [("performance", .obj
            [("threshold", .obj [("mobile", .num 70)])])]),
         ("strategies", .arr [.str "mobile"]),
         ("urls", .arr [urlA])]))) (some "staging") psRejectAll lhNoLhr =
       1 + (1 + [urlA, ].length * 1) +
         (1 + [urlA, ].length *
           [("performance", Json.obj [("threshold", .obj [("mobile", .num 70)])])].length) ∧
     1 < mainCfgCalls (some (.ok (.obj
        [("categories", .obj [("performance", .obj
            [("threshold", .obj [("mobile", .num 70)])])]),
         ("strategies", .arr [.str "mobile"]),
         ("urls", .arr [urlA])]))) (some "staging") psRejectAll lhNoLhr) :=
  C8_config_reread none none .notFound .notFound
    [("categories", .obj [("performance", .obj [("threshold", .obj [("mobile", .num 70)])])]),
     ("strategies", .arr [.str "mobile"]),
     ("urls", .arr [urlA])]
    "staging" "mobile" "performance" "network failure"
    (.obj [("threshold", .obj [("mobile", .num 70)])]) urlA [] []
    psRejectAll lhNoLhr rfl rfl (by decide) rfl rfl rfl rfl rfl (fun _ _ => rfl)

end BulkLighthouse
